import Mathlib

/-!
# Verification development for the condstore freight/conversation service

Shallow embedding of the core subsystems of the repository:

* `src/infra/errors.ts` — the structured error taxonomy (`BaseError` and its
  subclasses, discriminated here by an explicit `cls` tag mirroring the JS
  `instanceof` checks).
* the conversation state machine (`StateMachine`, its transition table,
  guards and the `QUANTITY_PROVIDED` action).
* the session manager (tenant-scoped keys, legacy-key compatibility layer),
  with the Redis backend modelled as an explicit association list passed in
  and out of each operation.
* `src/modules/freight/freight.service.ts` — `FreightService` with the
  weight-based strategy decision, provider fan-out, sorting/capping, cache
  and simulation persistence modelled by explicit state passing; the
  Melhor Envio network provider is an external collaborator and is a
  function parameter.
* `src/lib/engine/ranking.ts` — `calculateRanking` over
  `src/types/freight.ts` candidates.
* `src/core/conversation/intent-classifier.ts` — keyword/regex intent
  classification; the two regexes are implemented as explicit scanners with
  JS word-boundary (`\b`) semantics.

JS `number`s are modelled as `ℚ` (arithmetic in the claims under study is
exact; where the source divides by zero, `ℚ` division yields `0` instead of
JS `Infinity`/`NaN` — no claim below depends on that case).  Timestamps are
`ℕ`.  Strings are Lean `String`s, except in the intent classifier where
`List Char` is used so the scanners can recurse structurally.
-/

namespace CondStore

/-! ## Errors (`src/infra/errors.ts`) -/

/-- Error codes, mirroring the `ErrorCode` enum. -/
inductive ErrorCode where
  | REDIS_CONNECTION_ERROR
  | REDIS_OPERATION_ERROR
  | INTERNAL_ERROR
  | TWILIO_API_ERROR
  | MELHORENVIO_API_ERROR
  | MELHORENVIO_TIMEOUT
  | TABELA_CSV_ERROR
  | INVALID_CEP
  | INVALID_QUANTITY
  | INVALID_PHONE_NUMBER
  | SESSION_NOT_FOUND
  | SESSION_EXPIRED
  | INVALID_STATE_TRANSITION
  | NO_FREIGHT_OPTIONS
  | FREIGHT_CALCULATION_ERROR
  | UNKNOWN_ERROR
  | VALIDATION_ERROR
deriving DecidableEq

/-- Which error subclass an error was constructed with; stands in for the JS
`instanceof` discrimination between `BaseError`, `InfrastructureError`,
`ProviderError` and `BusinessError`. -/
inductive ErrCls where
  | base
  | infrastructure
  | provider
  | business
deriving DecidableEq

/-- `BaseError` with the constructor subclass recorded in `cls`. -/
structure BaseError where
  cls : ErrCls
  code : ErrorCode
  message : String
  isRetryable : Bool
deriving DecidableEq

/-- `new BusinessError(code, message, context)` — never retryable. -/
def businessError (code : ErrorCode) (message : String) : BaseError :=
  ⟨ErrCls.business, code, message, false⟩

/-- `new InfrastructureError(code, message, context)` — always retryable. -/
def infrastructureError (code : ErrorCode) (message : String) : BaseError :=
  ⟨ErrCls.infrastructure, code, message, true⟩

/-- `new ProviderError(code, message, context, isRetryable)`. -/
def providerError (code : ErrorCode) (message : String) (retryable : Bool) : BaseError :=
  ⟨ErrCls.provider, code, message, retryable⟩

/-- `error instanceof BusinessError`. -/
def isBusinessError (e : BaseError) : Bool :=
  e.cls == ErrCls.business

/-! ## Conversation state machine (`state-machine.ts`) -/

/-- `ConversationState` enum. -/
inductive ConversationState where
  | IDLE
  | AWAITING_CEP
  | AWAITING_QUANTITY
  | CALCULATING
  | COMPLETED
  | ERROR
deriving DecidableEq

/-- The string value of each `ConversationState` enum member. -/
def ConversationState.name : ConversationState → String
  | .IDLE => "IDLE"
  | .AWAITING_CEP => "AWAITING_CEP"
  | .AWAITING_QUANTITY => "AWAITING_QUANTITY"
  | .CALCULATING => "CALCULATING"
  | .COMPLETED => "COMPLETED"
  | .ERROR => "ERROR"

/-- `ConversationEvent` enum. -/
inductive ConversationEvent where
  | START_FREIGHT_QUERY
  | CEP_PROVIDED
  | QUANTITY_PROVIDED
  | CALCULATION_SUCCESS
  | CALCULATION_ERROR
  | RESET
  | ERROR
deriving DecidableEq

/-- The string value of each `ConversationEvent` enum member. -/
def ConversationEvent.name : ConversationEvent → String
  | .START_FREIGHT_QUERY => "START_FREIGHT_QUERY"
  | .CEP_PROVIDED => "CEP_PROVIDED"
  | .QUANTITY_PROVIDED => "QUANTITY_PROVIDED"
  | .CALCULATION_SUCCESS => "CALCULATION_SUCCESS"
  | .CALCULATION_ERROR => "CALCULATION_ERROR"
  | .RESET => "RESET"
  | .ERROR => "ERROR"

/-- `ConversationContext`.  `metadata: Record<string, unknown>` is modelled
as an optional list of string pairs; no transition reads or writes it. -/
structure ConversationContext where
  phoneNumber : String
  currentState : ConversationState
  cep : Option String
  quantity : Option ℚ
  totalWeight : Option ℚ
  lastMessage : Option String
  errorCount : Option ℤ
  metadata : Option (List (String × String))
deriving DecidableEq

/-- `isValidCEP`: strip non-digits (`replace(/\D/g, '')`) and require
exactly 8 remaining characters. -/
def isValidCEP (cep : Option String) : Bool :=
  match cep with
  | none => false
  | some c => (c.toList.filter Char.isDigit).length == 8

/-- `isValidQuantity`: a present number strictly greater than zero. -/
def isValidQuantity (quantity : Option ℚ) : Bool :=
  match quantity with
  | none => false
  | some q => decide (0 < q)

/-- One row of the transition table.  `from` and `to` are reserved words in
Lean, so the fields are `fromState` and `toState`.  The action mutates the context it is given (the
`QUANTITY_PROVIDED` action assigns `ctx.totalWeight` in place), so it is
modelled as a function returning the mutated context. -/
structure StateTransition where
  fromState : ConversationState
  event : ConversationEvent
  toState : ConversationState
  guard : Option (ConversationContext → Bool)
  action : Option (ConversationContext → ConversationContext)

/-- The transition table built by `defineTransitions`, in source order.
The `QUANTITY_PROVIDED` action is
`ctx.totalWeight = (ctx.quantity || 0) * 0.3` (`unitWeight` is the inlined
default `0.3`); `q || 0` agrees with `Option.getD 0` on rationals. -/
def transitions : List StateTransition :=
  [ ⟨.IDLE, .START_FREIGHT_QUERY, .AWAITING_CEP, none, none⟩,
    ⟨.AWAITING_CEP, .CEP_PROVIDED, .AWAITING_QUANTITY,
      some (fun ctx => isValidCEP ctx.cep), none⟩,
    ⟨.AWAITING_QUANTITY, .QUANTITY_PROVIDED, .CALCULATING,
      some (fun ctx => isValidQuantity ctx.quantity),
      some (fun ctx => { ctx with totalWeight := some (ctx.quantity.getD 0 * (3/10)) })⟩,
    ⟨.CALCULATING, .CALCULATION_SUCCESS, .COMPLETED, none, none⟩,
    ⟨.CALCULATING, .CALCULATION_ERROR, .ERROR, none, none⟩,
    ⟨.AWAITING_CEP, .RESET, .IDLE, none, none⟩,
    ⟨.AWAITING_QUANTITY, .RESET, .IDLE, none, none⟩,
    ⟨.CALCULATING, .RESET, .IDLE, none, none⟩,
    ⟨.COMPLETED, .RESET, .IDLE, none, none⟩,
    ⟨.ERROR, .RESET, .IDLE, none, none⟩,
    ⟨.AWAITING_CEP, .ERROR, .ERROR, none, none⟩,
    ⟨.AWAITING_QUANTITY, .ERROR, .ERROR, none, none⟩ ]

/-- `this.transitions.find((t) => t.from === currentState && t.event === event)`. -/
def findTransition (s : ConversationState) (e : ConversationEvent) : Option StateTransition :=
  transitions.find? (fun t => t.fromState == s && t.event == e)

/-- Whether the pair is in the table (`canTransition`). -/
def hasTransition (s : ConversationState) (e : ConversationEvent) : Bool :=
  transitions.any (fun t => t.fromState == s && t.event == e)

/-- The `StateError` thrown for a pair absent from the table; its message
names the attempted transition. -/
def invalidTransitionError (s : ConversationState) (e : ConversationEvent) : BaseError :=
  businessError .INVALID_STATE_TRANSITION
    ("Invalid transition from " ++ s.name ++ " with event " ++ e.name)

/-- The `ValidationError` thrown when a transition guard fails. -/
def guardFailedError : BaseError :=
  businessError .VALIDATION_ERROR "Transition guard condition not met"

/-- `StateMachine.transition(context, event)`.

The first component is the JS return/throw outcome; the second component is
the state of the *caller's* context object after the call, which captures
the in-place mutation performed by a transition action (the source spreads
the — possibly mutated — input into a fresh object only for the
`currentState` update). -/
def transition (ctx : ConversationContext) (event : ConversationEvent) :
    Except BaseError ConversationContext × ConversationContext :=
  match findTransition ctx.currentState event with
  | none => (Except.error (invalidTransitionError ctx.currentState event), ctx)
  | some t =>
    let guardOk := match t.guard with
      | some g => g ctx
      | none => true
    if guardOk then
      let mutated := match t.action with
        | some a => a ctx
        | none => ctx
      (Except.ok { mutated with currentState := t.toState }, mutated)
    else
      (Except.error guardFailedError, ctx)

/-! ## Session manager (`session-manager.ts`, tenant-scoped version)

The Redis backend is modelled as an association list from keys to
`(value, ttlSeconds)` pairs; `set` prepends (the first match wins on
lookup, so prepending is overwrite), `delete` removes all entries for the
key.  Redis availability and the success of a `set` are boolean
parameters, since they are decided by the external backend.  The
development-only in-memory fallback store is a plain association list with
an explicit `now` for its expiry check. -/

/-- `appConfig.env`. -/
inductive Env where
  | development
  | production
  | test
deriving DecidableEq

/-- The slice of `appConfig` the core reads (defaults from
`app.config.ts`: session TTL 6 h, unit weight 0.3 kg, 3 options cap). -/
structure AppConfig where
  env : Env
  sessionTtlMs : ℕ
  defaultUnitWeight : ℚ
  maxOptionsToReturn : ℕ

/-- `appConfig` with every default value. -/
def appConfig : AppConfig :=
  ⟨Env.development, 6 * 60 * 60 * 1000, 3/10, 3⟩

/-- `SessionData extends ConversationContext` plus tenancy and lifecycle
timestamps. -/
structure SessionData extends ConversationContext where
  tenantId : String
  createdAt : ℕ
  updatedAt : ℕ
  expiresAt : ℕ
deriving DecidableEq

/-- The Redis key-value store visible to the session manager. -/
def RedisStore := List (String × SessionData × ℕ)

/-- `redisClient.get(key)` (ignores the stored TTL; expiry is Redis's own
concern and no claim under study depends on it). -/
def redisGet (r : RedisStore) (key : String) : Option SessionData :=
  (List.find? (fun e => e.1 == key) r).map (fun e => e.2.1)

/-- `redisClient.set(key, value, ttlSeconds)` — prepend overwrites. -/
def redisSet (r : RedisStore) (key : String) (v : SessionData) (ttl : ℕ) : RedisStore :=
  (key, v, ttl) :: r

/-- `redisClient.delete(key)`. -/
def redisDelete (r : RedisStore) (key : String) : RedisStore :=
  List.filter (fun e => !(e.1 == key)) r

/-- The in-memory fallback store. -/
def MemStore := List (String × SessionData)

/-- `InMemorySessionStore.get` with its expiry-side-effect: an expired
entry is deleted and reported absent. -/
def memGet (m : MemStore) (phoneNumber : String) (now : ℕ) : Option SessionData × MemStore :=
  match List.find? (fun e => e.1 == phoneNumber) m with
  | none => (none, m)
  | some e =>
    if e.2.expiresAt < now then
      (none, List.filter (fun x => !(x.1 == phoneNumber)) m)
    else
      (some e.2, m)

/-- `InMemorySessionStore.set`. -/
def memSet (m : MemStore) (phoneNumber : String) (s : SessionData) : MemStore :=
  (phoneNumber, s) :: m

/-- New tenant-scoped key format `session:{tenantId}:{phoneNumber}`. -/
def sessionKey (tenantId phoneNumber : String) : String :=
  "session:" ++ tenantId ++ ":" ++ phoneNumber

/-- Legacy untenanted key format `session:{phoneNumber}`. -/
def oldSessionKey (phoneNumber : String) : String :=
  "session:" ++ phoneNumber

/-- `tenant_id is required` business error for an operation name. -/
def tenantRequiredError (op : String) : BaseError :=
  businessError .VALIDATION_ERROR ("tenant_id is required to " ++ op)

/-- `SessionManager.getSession(tenantId, phoneNumber)`.

Returns the JS outcome plus the Redis and memory stores after the call.
`redisAvailable` models `redisClient.isAvailable()`. -/
def getSession (cfg : AppConfig) (redisAvailable : Bool) (r : RedisStore) (m : MemStore)
    (tenantId phoneNumber : String) (now : ℕ) :
    Except BaseError (Option SessionData) × RedisStore × MemStore :=
  if tenantId == "" then
    (Except.error (tenantRequiredError "get session"), r, m)
  else if redisAvailable then
    match redisGet r (sessionKey tenantId phoneNumber) with
    | some session => (Except.ok (some session), r, m)
    | none =>
      match redisGet r (oldSessionKey phoneNumber) with
      | some _ =>
        -- compatibility layer: delete the legacy key and report "not found"
        -- so the caller recreates a fresh tenant-scoped session
        (Except.ok none, redisDelete r (oldSessionKey phoneNumber), m)
      | none => (Except.ok none, r, m)
  else if cfg.env == Env.production then
    (Except.error (infrastructureError .INTERNAL_ERROR
      "Redis unavailable in production — cannot retrieve session"), r, m)
  else
    match memGet m phoneNumber now with
    | (res, m2) => (Except.ok res, r, m2)

/-- `Math.ceil(appConfig.session.ttlMs / 1000)`. -/
def ttlSeconds (cfg : AppConfig) : ℕ :=
  (cfg.sessionTtlMs + 999) / 1000

/-- `SessionManager.saveSession` (private).  `setOk` models the boolean
result of `redisClient.set`. -/
def saveSession (cfg : AppConfig) (redisAvailable setOk : Bool) (r : RedisStore) (m : MemStore)
    (tenantId phoneNumber : String) (session : SessionData) :
    Except BaseError Unit × RedisStore × MemStore :=
  let afterRedis : Except BaseError Unit × RedisStore :=
    if redisAvailable then
      if setOk then
        (Except.ok (), redisSet r (sessionKey tenantId phoneNumber) session (ttlSeconds cfg))
      else if cfg.env == Env.production then
        (Except.error (infrastructureError .INTERNAL_ERROR
          "Failed to save session to Redis in production"), r)
      else
        (Except.ok (), r)
    else if cfg.env == Env.production then
      (Except.error (infrastructureError .INTERNAL_ERROR
        "Redis unavailable in production — cannot save session"), r)
    else
      (Except.ok (), r)
  match afterRedis with
  | (Except.error e, r2) => (Except.error e, r2, m)
  | (Except.ok _, r2) =>
    if cfg.env == Env.production then
      (Except.ok (), r2, m)
    else
      (Except.ok (), r2, memSet m phoneNumber session)

/-- `SessionManager.createSession(tenantId, phoneNumber)`: a fresh
tenant-scoped record in `IDLE` with `errorCount` 0 and a full TTL. -/
def createSession (cfg : AppConfig) (redisAvailable setOk : Bool) (r : RedisStore) (m : MemStore)
    (tenantId phoneNumber : String) (now : ℕ) :
    Except BaseError SessionData × RedisStore × MemStore :=
  if tenantId == "" then
    (Except.error (tenantRequiredError "create session"), r, m)
  else
    let session : SessionData :=
      { phoneNumber := phoneNumber
        currentState := ConversationState.IDLE
        cep := none
        quantity := none
        totalWeight := none
        lastMessage := none
        errorCount := some 0
        metadata := none
        tenantId := tenantId
        createdAt := now
        updatedAt := now
        expiresAt := now + cfg.sessionTtlMs }
    match saveSession cfg redisAvailable setOk r m tenantId phoneNumber session with
    | (Except.error e, r2, m2) => (Except.error e, r2, m2)
    | (Except.ok _, r2, m2) => (Except.ok session, r2, m2)

/-! ## Freight module (`freight.types.ts`, `freight.service.ts`) -/

namespace Freight

/-- `FreightStrategy` enum. -/
inductive FreightStrategy where
  | MELHORENVIO_ONLY
  | BOTH
  | TABELA_ONLY
deriving DecidableEq

/-- The string value of each `FreightStrategy` enum member. -/
def FreightStrategy.name : FreightStrategy → String
  | .MELHORENVIO_ONLY => "MELHORENVIO_ONLY"
  | .BOTH => "BOTH"
  | .TABELA_ONLY => "TABELA_ONLY"

/-- Package dimensions in cm. -/
structure Dimensions where
  width : ℚ
  height : ℚ
  length : ℚ
deriving DecidableEq

/-- `FreightRequest`. -/
structure FreightRequest where
  destinationCep : String
  quantity : ℚ
  unitWeight : Option ℚ
  dimensions : Option Dimensions
deriving DecidableEq

/-- The freight module's `FreightOption` (field `deliveryTime`, unlike the
ranking engine's candidate type which uses `deliveryDays`). -/
structure FreightOption where
  id : String
  carrier : String
  service : String
  price : ℚ
  deliveryTime : ℚ
  source : String
deriving DecidableEq

/-- `FreightResult`. -/
structure FreightResult where
  success : Bool
  options : List FreightOption
  totalWeight : ℚ
  request : FreightRequest
  calculatedAt : ℕ
  errorMessage : Option String
deriving DecidableEq

/-- `WeightDecision`. -/
structure WeightDecision where
  totalWeight : ℚ
  strategy : FreightStrategy
  reason : String
deriving DecidableEq

/-- The quote type of the placeholder `TabelaProvider`. -/
structure TabelaQuote where
  id : String
  carrier : String
  service : String
  price : ℚ
  deliveryTime : ℚ
deriving DecidableEq

/-- `TabelaProvider.calculateShipping(totalWeight)`: a single fixed quote
for weights up to 30 kg, an empty list above. -/
def tabelaCalculateShipping (totalWeight : ℚ) : List TabelaQuote :=
  if totalWeight ≤ 30 then
    [⟨"tabela-1", "Transportadora Local", "Rodoviário", 45 + totalWeight * (5/2), 5⟩]
  else
    []

/-- A simulation row as handed to `simulationRepository.saveSimulation`
(numeric fields are stringified there; the values are kept as rationals,
`productCost`/`sellingPrice` are the hard-coded strings). -/
structure SimulationRow where
  id : String
  cep : String
  weight : ℚ
  quantity : ℚ
  bestCarrier : String
  bestService : String
  bestPrice : ℚ
  bestMargin : ℚ
  strategy : String
  productCost : String
  sellingPrice : String
deriving DecidableEq

/-- The external state calculateFreight reads and writes: the Redis quote
cache and the simulation audit table. -/
structure FreightWorld where
  cache : List (String × FreightResult)
  simulations : List SimulationRow
deriving DecidableEq

/-- `ShippingQuoteRequest` sent to the Melhor Envio provider. -/
structure ShippingQuoteRequest where
  destinationCep : String
  totalWeight : ℚ
  quantity : ℚ
  dimensions : Option Dimensions
deriving DecidableEq

/-- The Melhor Envio provider is an external HTTP collaborator
(`melhorenvio.provider.ts`); it is modelled as a function returning either
quotes (whose `source` is `"melhorenvio"`) or an error. -/
def MEProvider := ShippingQuoteRequest → Except BaseError (List FreightOption)

/-- `FreightService.validateRequest`: `^\d{8}$` on the CEP, then
`quantity <= 0 || quantity > 9999`.  Returns the error it would throw. -/
def validateRequest (request : FreightRequest) : Option BaseError :=
  if !(request.destinationCep.length == 8 && request.destinationCep.toList.all Char.isDigit) then
    some (businessError .INVALID_CEP "Invalid CEP format")
  else if request.quantity ≤ 0 ∨ 9999 < request.quantity then
    some (businessError .INVALID_QUANTITY "Invalid quantity")
  else
    none

/-- `request.unitWeight || appConfig.freight.defaultUnitWeight` — the `||`
falls through on the falsy value `0` as well as on `undefined`. -/
def effectiveUnitWeight (cfg : AppConfig) (request : FreightRequest) : ℚ :=
  match request.unitWeight with
  | some u => if u = 0 then cfg.defaultUnitWeight else u
  | none => cfg.defaultUnitWeight

/-- The cache key `v1:freight:{cep}:{totalWeight}:{quantity}`. -/
def fingerprint (cep : String) (totalWeight quantity : ℚ) : String :=
  "v1:freight:" ++ cep ++ ":" ++ toString totalWeight ++ ":" ++ toString quantity

/-- Quote-cache lookup (`redisClient.get`). -/
def lookupCache (cache : List (String × FreightResult)) (key : String) : Option FreightResult :=
  (List.find? (fun e => e.1 == key) cache).map (fun e => e.2)

/-- `FreightService.decideStrategy(totalWeight)`. -/
def decideStrategy (totalWeight : ℚ) : WeightDecision :=
  if totalWeight ≤ 10 then
    ⟨totalWeight, .MELHORENVIO_ONLY, "Weight ≤10kg: Using Melhor Envio only"⟩
  else if 10 < totalWeight ∧ totalWeight ≤ 15 then
    ⟨totalWeight, .BOTH, "Weight 10-15kg: Using both Melhor Envio and Tabela"⟩
  else
    ⟨totalWeight, .TABELA_ONLY, "Weight >15kg: Using Tabela only"⟩

/-- The comparator of `sortAndLimitOptions`: price ascending, ties broken
by delivery time ascending, as a boolean total preorder for the stable
sort (ES2019+ `Array.prototype.sort` is stable). -/
def optionLE (a b : FreightOption) : Bool :=
  decide (a.price < b.price) || (decide (a.price = b.price) && decide (a.deliveryTime ≤ b.deliveryTime))

/-- `FreightService.sortAndLimitOptions`. -/
def sortAndLimitOptions (cfg : AppConfig) (options : List FreightOption) : List FreightOption :=
  (options.mergeSort optionLE).take cfg.maxOptionsToReturn

/-- Tabela quotes are tagged with `source: 'tabela'` when merged. -/
def tabelaToOptions (qs : List TabelaQuote) : List FreightOption :=
  qs.map (fun q => ⟨q.id, q.carrier, q.service, q.price, q.deliveryTime, "tabela"⟩)

/-- The `NoOptionsError` thrown when the merged candidate set is empty. -/
def noOptionsError : BaseError :=
  businessError .NO_FREIGHT_OPTIONS "No freight options available for this destination"

/-- `FreightService.fetchQuotes`: fan out per strategy, merge, fail on an
empty merged set; its `catch` rethrows `BusinessError`s and wraps anything
else in `FREIGHT_CALCULATION_ERROR`. -/
def fetchQuotes (me : MEProvider) (request : FreightRequest) (totalWeight : ℚ)
    (strategy : FreightStrategy) : Except BaseError (List FreightOption) :=
  let meRes : Except BaseError (List FreightOption) :=
    if strategy == .MELHORENVIO_ONLY || strategy == .BOTH then
      me ⟨request.destinationCep, totalWeight, request.quantity, request.dimensions⟩
    else
      Except.ok []
  match meRes with
  | Except.error e =>
    if isBusinessError e then
      Except.error e
    else
      Except.error (businessError .FREIGHT_CALCULATION_ERROR "Failed to fetch freight quotes")
  | Except.ok meQuotes =>
    let options := meQuotes ++
      (if strategy == .TABELA_ONLY || strategy == .BOTH then
        tabelaToOptions (tabelaCalculateShipping totalWeight)
      else
        [])
    if options.isEmpty then
      Except.error noOptionsError
    else
      Except.ok options

/-- `FreightService.calculateFreight(request)`.

Explicit-state rendering of the service method: `me` is the Melhor Envio
collaborator, `world` the cache and audit sink, `now` the clock reading
used for `calculatedAt` and `uuid` the `randomUUID()` value for the
simulation row.  The repository write (`persistSimulation`) is modelled as
an always-successful append to the audit sink.  Every error produced on
these paths is a `BusinessError`, which the surrounding `catch` rethrows
unchanged. -/
def calculateFreight (cfg : AppConfig) (me : MEProvider) (world : FreightWorld)
    (request : FreightRequest) (now : ℕ) (uuid : String) :
    Except BaseError FreightResult × FreightWorld :=
  match validateRequest request with
  | some e => (Except.error e, world)
  | none =>
    let totalWeight := effectiveUnitWeight cfg request * request.quantity
    let key := fingerprint request.destinationCep totalWeight request.quantity
    match lookupCache world.cache key with
    | some cached => (Except.ok cached, world)
    | none =>
      let decision := decideStrategy totalWeight
      match fetchQuotes me request totalWeight decision.strategy with
      | Except.error e => (Except.error e, world)
      | Except.ok options =>
        let sortedOptions := sortAndLimitOptions cfg options
        match sortedOptions with
        | [] =>
          -- `sortedOptions[0]` is `undefined` here in JS and the member
          -- access throws, which the catch wraps; unreachable because
          -- fetchQuotes rejects an empty merged set
          (Except.error (businessError .FREIGHT_CALCULATION_ERROR "Failed to calculate freight"),
            world)
        | bestOption :: _ =>
          let bestMargin := bestOption.price * (1/5)
          let row : SimulationRow :=
            ⟨uuid, request.destinationCep, totalWeight, request.quantity,
              bestOption.carrier, bestOption.service, bestOption.price, bestMargin,
              decision.strategy.name, "0.00", "0.00"⟩
          let world1 : FreightWorld := ⟨world.cache, world.simulations ++ [row]⟩
          let cachedResult : FreightResult :=
            ⟨true, sortAndLimitOptions cfg options, totalWeight, request, now, none⟩
          let world2 : FreightWorld := ⟨(key, cachedResult) :: world1.cache, world1.simulations⟩
          (Except.ok ⟨true, sortedOptions, totalWeight, request, now, none⟩, world2)

end Freight

/-! ## Ranking engine (`src/types/freight.ts`, `src/lib/engine/ranking.ts`) -/

namespace Engine

/-- `EconomicMetrics`. -/
structure EconomicMetrics where
  netRevenue : ℚ
  profit : ℚ
  marginPercent : ℚ
deriving DecidableEq

/-- The ranking engine's candidate type (`src/types/freight.ts`
`FreightOption`, field `deliveryDays`); `source` is one of
`'melhor_envio' | 'tabela' | 'manual'`, kept as a string. -/
structure FreightOption where
  id : String
  carrier : String
  service : String
  price : ℚ
  deliveryDays : ℚ
  source : String
  economics : Option EconomicMetrics
deriving DecidableEq

instance : Inhabited FreightOption :=
  ⟨⟨"", "", "", 0, 0, "", none⟩⟩

/-- `EconomicContext`. -/
structure EconomicContext where
  priceWeight : ℚ
  timeWeight : ℚ
  marginWeight : ℚ
  productCost : ℚ
  sellingPrice : ℚ
  operationalCost : Option ℚ
deriving DecidableEq

/-- `FreightRanking` — note there is no best-margin field; `bestCostBenefit`
is set to `bestOption` by `calculateRanking`. -/
structure FreightRanking where
  options : List FreightOption
  bestOption : Option FreightOption
  cheapestOption : Option FreightOption
  fastestOption : Option FreightOption
  bestCostBenefit : Option FreightOption
deriving DecidableEq

/-- `RankingStrategy`. -/
structure RankingStrategy where
  priceWeight : ℚ
  timeWeight : ℚ
  marginWeight : Option ℚ
deriving DecidableEq

/-- `DEFAULT_STRATEGY`: price 0.6, time 0.4, margin 0. -/
def DEFAULT_STRATEGY : RankingStrategy :=
  ⟨3/5, 2/5, some 0⟩

/-- The per-candidate economics computed when a context is supplied:
`netRevenue = sellingPrice − price`,
`profit = netRevenue − productCost − (operationalCost || 0)`,
`marginPercent = sellingPrice > 0 ? profit / sellingPrice * 100 : 0`. -/
def applyEconomics (context : EconomicContext) (o : FreightOption) : FreightOption :=
  let operationalCost := context.operationalCost.getD 0
  let netRevenue := context.sellingPrice - o.price
  let profit := netRevenue - context.productCost - operationalCost
  let marginPercent :=
    if 0 < context.sellingPrice then profit / context.sellingPrice * 100 else 0
  { o with economics := some ⟨netRevenue, profit, marginPercent⟩ }

/-- Comparator `(a, b) => a.price - b.price` as a boolean total preorder. -/
def priceLE (a b : FreightOption) : Bool :=
  decide (a.price ≤ b.price)

/-- Comparator `(a, b) => a.deliveryDays - b.deliveryDays`. -/
def timeLE (a b : FreightOption) : Bool :=
  decide (a.deliveryDays ≤ b.deliveryDays)

/-- `b.economics?.marginPercent || 0` (the `|| 0` is the identity on a
present margin of `0`, so plain defaulting is faithful). -/
def marginOf (o : FreightOption) : ℚ :=
  match o.economics with
  | some e => e.marginPercent
  | none => 0

/-- Comparator `(a, b) => (b.margin || 0) - (a.margin || 0)` — descending
margin. -/
def marginDesc (a b : FreightOption) : Bool :=
  decide (marginOf b ≤ marginOf a)

/-- Comparator `(a, b) => a.score - b.score` over scored pairs. -/
def scoreLE (a b : FreightOption × ℚ) : Bool :=
  decide (a.2 ≤ b.2)

/-- `calculateRanking(options, strategy, context)`.

The returned `options` list carries the candidates in ascending-score
order (the JS objects also carry a `score` field at runtime that the
declared `FreightOption[]` type erases; the pairing with the score is
internal here and projected away, preserving the order).  Division by a
zero `minPrice`/`minDays` would be JS `Infinity`/`NaN`; in `ℚ` it is `0` —
no claim below touches that case. -/
def calculateRanking (options : List FreightOption) (strategy : RankingStrategy)
    (context : Option EconomicContext) : FreightRanking :=
  match options with
  | [] => ⟨[], none, none, none, none⟩
  | _ :: _ =>
    let workingOptions :=
      match context with
      | some ctx => options.map (applyEconomics ctx)
      | none => options
    let cheapest := (workingOptions.mergeSort priceLE).headI
    let fastest := (workingOptions.mergeSort timeLE).headI
    let bestMarginOption : Option FreightOption :=
      match context with
      | some _ => some (workingOptions.mergeSort marginDesc).headI
      | none => none
    let maxMargin : ℚ :=
      -- `bestMarginOption?.economics?.marginPercent || 1` — `|| 1` also
      -- replaces a present margin of exactly 0
      match bestMarginOption with
      | some b =>
        match b.economics with
        | some e => if e.marginPercent = 0 then 1 else e.marginPercent
        | none => 1
      | none => 1
    let minPrice := cheapest.price
    let minTime := fastest.deliveryDays
    let scored := workingOptions.map (fun o =>
      let priceScore := o.price / minPrice * strategy.priceWeight
      let timeScore := o.deliveryDays / minTime * strategy.timeWeight
      let marginScore :=
        match context, strategy.marginWeight, o.economics with
        | some _, some mw, some e =>
          -- `context && strategy.marginWeight && opt.economics`: a zero
          -- marginWeight is falsy and skips the margin term
          if mw = 0 then 0 else (1 - e.marginPercent / maxMargin) * mw
        | _, _, _ => 0
      (o, priceScore + timeScore + marginScore))
    let ranked := (scored.mergeSort scoreLE).map (fun p => p.1)
    let bestOption := ranked.head?
    ⟨ranked, bestOption, some cheapest, some fastest, bestOption⟩

end Engine

/-! ## Intent classifier (`intent-classifier.ts`)

Messages are `List Char`.  `normalize` models
`toLowerCase().trim().normalize('NFD').replace(/[̀-ͯ]/g, '')`
for ASCII plus the precomposed Latin letters that occur in Portuguese
text (each lowers to a precomposed letter whose NFD form is its base
letter followed by combining marks in U+0300–U+036F, so lower-then-strip
is a single character map on this alphabet).  The two regexes
`/\b(\d{5})-?(\d{3})\b/` and `/\b(\d{1,4})\b/` are implemented as
leftmost-match scanners with JS `\b` semantics (`\w = [A-Za-z0-9_]`);
since every pattern position adjacent to a boundary is a digit, `\b`
holds exactly when the neighbouring character is absent or a
non-word character. -/

namespace Classifier

/-- `UserIntent` enum. -/
inductive UserIntent where
  | FREIGHT_QUERY
  | PROVIDE_CEP
  | PROVIDE_QUANTITY
  | RESET
  | HELP
  | CANCEL
  | TRACK_ORDER
  | PAYMENT_STATUS
  | HUMAN_SUPPORT
  | UNKNOWN
deriving DecidableEq

/-- The `extractedData` payload of an `IntentResult`. -/
structure ExtractedData where
  cep : Option (List Char)
  quantity : Option ℕ
deriving DecidableEq

/-- `IntentResult`. -/
structure IntentResult where
  intent : UserIntent
  confidence : ℚ
  extractedData : Option ExtractedData
deriving DecidableEq

/-- Lower-casing for ASCII letters and the Portuguese precomposed
uppercase letters (JS `toLowerCase` restricted to the modelled
alphabet). -/
def lowerChar (c : Char) : Char :=
  match c with
  | 'Á' => 'á' | 'À' => 'à' | 'Â' => 'â' | 'Ã' => 'ã'
  | 'Ç' => 'ç'
  | 'É' => 'é' | 'Ê' => 'ê'
  | 'Í' => 'í'
  | 'Ó' => 'ó' | 'Ô' => 'ô' | 'Õ' => 'õ'
  | 'Ú' => 'ú' | 'Ü' => 'ü'
  | _ => c.toLower

/-- NFD decomposition followed by removal of the combining marks
U+0300–U+036F, restricted to the modelled alphabet: each precomposed
lowercase letter maps to its base letter, everything else is unchanged. -/
def stripMark (c : Char) : Char :=
  match c with
  | 'á' => 'a' | 'à' => 'a' | 'â' => 'a' | 'ã' => 'a'
  | 'ç' => 'c'
  | 'é' => 'e' | 'ê' => 'e'
  | 'í' => 'i'
  | 'ó' => 'o' | 'ô' => 'o' | 'õ' => 'o'
  | 'ú' => 'u' | 'ü' => 'u'
  | _ => c

/-- `trim()` on a character list. -/
def trimChars (l : List Char) : List Char :=
  ((l.dropWhile Char.isWhitespace).reverse.dropWhile Char.isWhitespace).reverse

/-- `IntentClassifier.normalize(message)`. -/
def normalize (message : List Char) : List Char :=
  (trimChars (message.map lowerChar)).map stripMark

/-- Whether `needle` occurs as a contiguous run in the list. -/
def includesList (needle : List Char) : List Char → Bool
  | [] => List.isPrefixOf needle []
  | c :: cs => List.isPrefixOf needle (c :: cs) || includesList needle cs

/-- `message.includes(keyword)`. -/
def includesKw (message : List Char) (kw : String) : Bool :=
  includesList kw.toList message

/-- `keywords.some((kw) => message.includes(kw))`. -/
def anyKeyword (kws : List String) (message : List Char) : Bool :=
  kws.any (includesKw message)

/-- `isFreightQuery` keywords. -/
def freightKeywords : List String :=
  ["frete", "cotacao", "cotação", "envio", "entrega", "shipping", "freight",
    "quanto custa", "valor do frete", "calcular frete"]

/-- `isResetIntent` keywords. -/
def resetKeywords : List String :=
  ["reiniciar", "recomecar", "restart", "reset", "voltar", "comecar de novo"]

/-- `isCancelIntent` keywords. -/
def cancelKeywords : List String :=
  ["cancelar", "cancel", "sair", "parar", "stop"]

/-- `isHelpIntent` keywords. -/
def helpKeywords : List String :=
  ["ajuda", "help", "socorro", "como funciona", "nao entendi", "não entendi"]

/-- `isTrackingQuery` keywords. -/
def trackingKeywords : List String :=
  ["rastrear", "rastreio", "tracking", "onde esta", "onde está", "status do pedido"]

/-- `isPaymentQuery` keywords. -/
def paymentKeywords : List String :=
  ["pagamento", "payment", "boleto", "pix", "pagar", "segunda via"]

/-- `isHumanSupportRequest` keywords. -/
def humanKeywords : List String :=
  ["atendente", "humano", "pessoa", "falar com alguem", "falar com alguém", "human", "agent"]

/-- JS `\w`: `[A-Za-z0-9_]`. -/
def isWordChar (c : Char) : Bool :=
  (decide ('a' ≤ c) && decide (c ≤ 'z')) ||
  (decide ('A' ≤ c) && decide (c ≤ 'Z')) ||
  c.isDigit || decide (c = '_')

/-- `\b` to the right of a digit: the next character is absent or not a
word character. -/
def boundaryAfter (l : List Char) : Bool :=
  match l with
  | [] => true
  | c :: _ => !(isWordChar c)

/-- `\d{3}\b` at the head of the list, returning the three digits. -/
def cepTail (l : List Char) : Option (List Char) :=
  match l with
  | f :: g :: h :: rest =>
    if f.isDigit && g.isDigit && h.isDigit && boundaryAfter rest then
      some [f, g, h]
    else
      none
  | _ => none

/-- `(\d{5})-?(\d{3})\b` at the head of the list (the leading `\b` is the
caller's concern).  If the character after the five digits is a hyphen,
the greedy `-?` consumes it; the backtracking alternative without the
hyphen then starts at the hyphen itself and cannot match a digit, so no
second attempt is needed. -/
def cepMatchAt (l : List Char) : Option (List Char) :=
  match l with
  | a :: b :: c :: d :: e :: rest =>
    if a.isDigit && b.isDigit && c.isDigit && d.isDigit && e.isDigit then
      match rest with
      | [] => none
      | x :: rest1 =>
        (if x = '-' then cepTail rest1 else cepTail rest).map
          (fun tailDigits => a :: b :: c :: d :: e :: tailDigits)
    else
      none
  | _ => none

/-- `\b` to the left of a digit: the previous character (`none` at the
start of input) is absent or not a word character. -/
def boundaryOkBefore (prev : Option Char) : Bool :=
  match prev with
  | none => true
  | some p => !(isWordChar p)

/-- Leftmost-match scan for `/\b(\d{5})-?(\d{3})\b/`; `prev` is the
character before the current position.  The leading `\b` holds exactly
when `prev` is absent or non-word, the first matched character being a
digit. -/
def cepScan : Option Char → List Char → Option (List Char)
  | _, [] => none
  | prev, c :: cs =>
    match (if boundaryOkBefore prev then cepMatchAt (c :: cs) else none) with
    | some code => some code
    | none => cepScan (some c) cs

/-- `IntentClassifier.extractCEP(message)`: the first word-boundary match
of `\d{5}-?\d{3}`, hyphen dropped (`match[1] + match[2]`). -/
def extractCEP (message : List Char) : Option (List Char) :=
  cepScan none message

/-- `\b(\d{1,4})\b` at the head of the list.  The greedy quantifier with
backtracking succeeds here exactly when the maximal digit run has length
1–4 and is followed by a boundary: any shorter prefix of the run is
followed by a digit, which is a word character. -/
def qtyMatchAt (l : List Char) : Option (List Char) :=
  let run := l.takeWhile Char.isDigit
  if run.length == 0 then
    none
  else if run.length ≤ 4 && boundaryAfter (l.drop run.length) then
    some run
  else
    none

/-- Leftmost-match scan for `/\b(\d{1,4})\b/`. -/
def qtyScan : Option Char → List Char → Option (List Char)
  | _, [] => none
  | prev, c :: cs =>
    match (if boundaryOkBefore prev then qtyMatchAt (c :: cs) else none) with
    | some run => some run
    | none => qtyScan (some c) cs

/-- `parseInt` on a digit run. -/
def parseDigits (l : List Char) : ℕ :=
  l.foldl (fun n c => n * 10 + (c.toNat - 48)) 0

/-- `IntentClassifier.extractQuantity(message)`: the first word-boundary
match of `\d{1,4}`, kept only if its value is in `(0, 10000)`. -/
def extractQuantity (message : List Char) : Option ℕ :=
  match qtyScan none message with
  | some run =>
    let quantity := parseDigits run
    if 0 < quantity ∧ quantity < 10000 then some quantity else none
  | none => none

/-- `IntentClassifier.classify(message)` (the `currentState` argument is
only logged and does not influence the result). -/
def classify (message : List Char) : IntentResult :=
  let normalized := normalize message
  if anyKeyword resetKeywords normalized then
    ⟨.RESET, 1, none⟩
  else if anyKeyword cancelKeywords normalized then
    ⟨.CANCEL, 1, none⟩
  else if anyKeyword helpKeywords normalized then
    ⟨.HELP, 1, none⟩
  else
    match extractCEP normalized with
    | some cep => ⟨.PROVIDE_CEP, 1, some ⟨some cep, none⟩⟩
    | none =>
      match extractQuantity normalized with
      | some quantity => ⟨.PROVIDE_QUANTITY, 1, some ⟨none, some quantity⟩⟩
      | none =>
        if anyKeyword freightKeywords normalized then
          ⟨.FREIGHT_QUERY, 9/10, none⟩
        else if anyKeyword trackingKeywords normalized then
          ⟨.TRACK_ORDER, 8/10, none⟩
        else if anyKeyword paymentKeywords normalized then
          ⟨.PAYMENT_STATUS, 8/10, none⟩
        else if anyKeyword humanKeywords normalized then
          ⟨.HUMAN_SUPPORT, 9/10, none⟩
        else
          ⟨.UNKNOWN, 0, none⟩

/-- The spec's reading of rule 4: the bare pattern `\d{5}-?\d{3}` occurs
*anywhere* in the text, with no word-boundary requirement.  Used to state
the claim under study against the scanner actually implemented. -/
def cepPatternAt (l : List Char) : Bool :=
  match l with
  | a :: b :: c :: d :: e :: rest =>
    a.isDigit && b.isDigit && c.isDigit && d.isDigit && e.isDigit &&
      (match rest with
        | '-' :: f :: g :: h :: _ => f.isDigit && g.isDigit && h.isDigit
        | f :: g :: h :: _ => f.isDigit && g.isDigit && h.isDigit
        | _ => false)
  | _ => false

/-- `cepPatternAt` somewhere in the list. -/
def cepPatternOccurs : List Char → Bool
  | [] => false
  | c :: cs => cepPatternAt (c :: cs) || cepPatternOccurs cs

/-- A word-boundary-delimited occurrence of `\d{5}-?\d{3}`, stated
declaratively: five digits, an optional hyphen, three digits, preceded
and followed by nothing or a non-word character. -/
def cepDelimitedOccurs (m : List Char) : Prop :=
  ∃ pre d5 mid d3 post : List Char,
    m = pre ++ d5 ++ mid ++ d3 ++ post ∧
    d5.length = 5 ∧ (∀ c ∈ d5, c.isDigit = true) ∧
    (mid = [] ∨ mid = ['-']) ∧
    d3.length = 3 ∧ (∀ c ∈ d3, c.isDigit = true) ∧
    (pre = [] ∨ ∃ p, pre.getLast? = some p ∧ isWordChar p = false) ∧
    (post = [] ∨ ∃ c rest, post = c :: rest ∧ isWordChar c = false)

end Classifier

/-! ## Concrete example data used by witnesses and counterexamples -/

/-- A conversation context with the given state and quantity (destination
already collected). -/
def exampleCtx (s : ConversationState) (q : Option ℚ) : ConversationContext :=
  ⟨"5511999999999", s, some "01001000", q, none, none, none, none⟩

/-- A session stored under the legacy untenanted key only. -/
def legacySession : SessionData :=
  { phoneNumber := "5511999999999"
    currentState := ConversationState.AWAITING_CEP
    cep := some "01001000"
    quantity := none
    totalWeight := none
    lastMessage := none
    errorCount := some 0
    metadata := none
    tenantId := ""
    createdAt := 1000
    updatedAt := 2000
    expiresAt := 100000 }

/-- A Redis store holding only the legacy key for the example user. -/
def legacyStore : RedisStore :=
  [(oldSessionKey "5511999999999", legacySession, 21600)]

namespace Freight

/-- An empty cache and audit sink. -/
def emptyWorld : FreightWorld := ⟨[], []⟩

/-- A valid light request: quantity 5 at the default unit weight 0.3 kg
gives total weight 1.5 kg (Melhor Envio only). -/
def lightRequest : FreightRequest := ⟨"01001000", 5, none, none⟩

/-- A valid heavy request: quantity 101 at the default unit weight gives
total weight 30.3 kg (> 30). -/
def heavyRequest : FreightRequest := ⟨"01001000", 101, none, none⟩

/-- The ranking-scenario quotes as returned by the Melhor Envio provider:
prices 20/40/25/21 with delivery times 10/3/8/9 days. -/
def scenarioQuotes : List FreightOption :=
  [ ⟨"me-1", "Carrier A", "Service A", 20, 10, "melhorenvio"⟩,
    ⟨"me-2", "Carrier B", "Service B", 40, 3, "melhorenvio"⟩,
    ⟨"me-3", "Carrier C", "Service C", 25, 8, "melhorenvio"⟩,
    ⟨"me-4", "Carrier D", "Service D", 21, 9, "melhorenvio"⟩ ]

/-- The globally fastest scenario quote (3 days, price 40). -/
def scenarioFastest : FreightOption :=
  ⟨"me-2", "Carrier B", "Service B", 40, 3, "melhorenvio"⟩

/-- A provider that answers every request with the scenario quotes. -/
def scenarioProvider : MEProvider := fun _ => Except.ok scenarioQuotes

/-- A provider that answers every request with an empty quote list. -/
def emptyProvider : MEProvider := fun _ => Except.ok []

end Freight

namespace Engine

/-- The scenario quotes as ranking-engine candidates (`deliveryDays`). -/
def scenarioCandidates : List FreightOption :=
  [ ⟨"me-1", "Carrier A", "Service A", 20, 10, "melhor_envio", none⟩,
    ⟨"me-2", "Carrier B", "Service B", 40, 3, "melhor_envio", none⟩,
    ⟨"me-3", "Carrier C", "Service C", 25, 8, "melhor_envio", none⟩,
    ⟨"me-4", "Carrier D", "Service D", 21, 9, "melhor_envio", none⟩ ]

/-- The spec's ranking scenario: candidates (20,10), (40,3), (25,8). -/
def specCandidates : List FreightOption :=
  [ ⟨"1", "Carrier A", "Service A", 20, 10, "manual", none⟩,
    ⟨"2", "Carrier B", "Service B", 40, 3, "manual", none⟩,
    ⟨"3", "Carrier C", "Service C", 25, 8, "manual", none⟩ ]

/-- An economic context with selling price 100 and product cost 10. -/
def exampleContext : EconomicContext := ⟨3/5, 2/5, 0, 10, 100, none⟩

end Engine

/-! ## Theorems -/

/-- C6: the weight strategy is selected by the fixed thresholds — weight
≤ 10 selects the light (Melhor Envio) provider only, 10 < weight ≤ 15
selects both providers, and weight > 15 selects the heavy-table provider
only. -/
theorem c6_weight_strategy_thresholds (w : ℚ) :
    (w ≤ 10 → (Freight.decideStrategy w).strategy = Freight.FreightStrategy.MELHORENVIO_ONLY) ∧
    (10 < w → w ≤ 15 → (Freight.decideStrategy w).strategy = Freight.FreightStrategy.BOTH) ∧
    (15 < w → (Freight.decideStrategy w).strategy = Freight.FreightStrategy.TABELA_ONLY) := by
  refine ⟨fun h => ?_, fun h1 h2 => ?_, fun h => ?_⟩
  · simp [Freight.decideStrategy, h]
  · have h0 : ¬ w ≤ 10 := not_le.mpr h1
    simp [Freight.decideStrategy, h0, h1, h2]
  · have h0 : ¬ w ≤ 10 := by linarith
    have h1 : ¬ (10 < w ∧ w ≤ 15) := by
      rintro ⟨_, h2⟩
      linarith
    simp [Freight.decideStrategy, h0, h1]

/-- Witness for C6 at the boundary weights 10, 10.01, 15 and 15.01. -/
theorem c6_weight_strategy_thresholds_witness :
    (Freight.decideStrategy 10).strategy = Freight.FreightStrategy.MELHORENVIO_ONLY ∧
    (Freight.decideStrategy (1001/100)).strategy = Freight.FreightStrategy.BOTH ∧
    (Freight.decideStrategy 15).strategy = Freight.FreightStrategy.BOTH ∧
    (Freight.decideStrategy (1501/100)).strategy = Freight.FreightStrategy.TABELA_ONLY :=
  ⟨(c6_weight_strategy_thresholds 10).1 (by norm_num),
   (c6_weight_strategy_thresholds (1001/100)).2.1 (by norm_num) (by norm_num),
   (c6_weight_strategy_thresholds 15).2.1 (by norm_num) (by norm_num),
   (c6_weight_strategy_thresholds (1501/100)).2.2 (by norm_num)⟩

/-- C3: a `(state, event)` pair absent from the transition table is
rejected with a `StateError` (`INVALID_STATE_TRANSITION`) whose message
names the attempted transition, and a pair present in the table never
produces that error. -/
theorem c3_unknown_pair_state_error (ctx : ConversationContext) (e : ConversationEvent) :
    (hasTransition ctx.currentState e = false →
      (transition ctx e).1 = Except.error (invalidTransitionError ctx.currentState e)) ∧
    (invalidTransitionError ctx.currentState e).code = ErrorCode.INVALID_STATE_TRANSITION ∧
    (invalidTransitionError ctx.currentState e).message =
      "Invalid transition from " ++ ctx.currentState.name ++ " with event " ++ e.name ∧
    (hasTransition ctx.currentState e = true →
      ∀ err, (transition ctx e).1 = Except.error err →
        err.code ≠ ErrorCode.INVALID_STATE_TRANSITION) := by
  refine ⟨fun h => ?_, rfl, rfl, fun h err herr => ?_⟩
  · have hf : findTransition ctx.currentState e = none := by
      unfold findTransition
      rw [List.find?_eq_none]
      unfold hasTransition at h
      simpa using List.any_eq_false.mp h
    simp [transition, hf]
  · unfold hasTransition at h
    obtain ⟨t, ht, hp⟩ := List.any_eq_true.mp h
    cases hf : findTransition ctx.currentState e with
    | none =>
      unfold findTransition at hf
      rw [List.find?_eq_none] at hf
      exact absurd hp (by simpa using hf t ht)
    | some t' =>
      simp only [transition, hf] at herr
      split at herr
      · simp at herr
      · cases herr
        intro hc
        cases hc

/-- Witness for C3: `CEP_PROVIDED` on `IDLE` is not in the table and is
rejected with the naming `StateError`; `QUANTITY_PROVIDED` on
`AWAITING_QUANTITY` is in the table and whatever error it produces (here a
guard failure at quantity 0) is not a `StateError`. -/
theorem c3_unknown_pair_state_error_witness :
    (transition (exampleCtx .IDLE none) .CEP_PROVIDED).1 =
      Except.error (invalidTransitionError .IDLE .CEP_PROVIDED) ∧
    (∀ err, (transition (exampleCtx .AWAITING_QUANTITY (some 0)) .QUANTITY_PROVIDED).1 =
      Except.error err → err.code ≠ ErrorCode.INVALID_STATE_TRANSITION) :=
  ⟨(c3_unknown_pair_state_error (exampleCtx .IDLE none) .CEP_PROVIDED).1 (by decide),
   (c3_unknown_pair_state_error (exampleCtx .AWAITING_QUANTITY (some 0))
      .QUANTITY_PROVIDED).2.2.2 (by decide)⟩

/-- The table row found for `QUANTITY_PROVIDED` in `AWAITING_QUANTITY`. -/
theorem findTransition_quantity :
    findTransition .AWAITING_QUANTITY .QUANTITY_PROVIDED =
      some ⟨.AWAITING_QUANTITY, .QUANTITY_PROVIDED, .CALCULATING,
        some (fun ctx => isValidQuantity ctx.quantity),
        some (fun ctx => { ctx with totalWeight := some (ctx.quantity.getD 0 * (3/10)) })⟩ :=
  rfl

/-- `isValidQuantity` holds exactly for a present strictly positive
quantity. -/
theorem isValidQuantity_iff (q : Option ℚ) :
    isValidQuantity q = true ↔ ∃ x, q = some x ∧ 0 < x := by
  cases q <;> simp [isValidQuantity]

/-- Helper: a rejected transition leaves the caller's context untouched. -/
theorem transition_error_frame (ctx : ConversationContext) (e : ConversationEvent)
    (err : BaseError) (herr : (transition ctx e).1 = Except.error err) :
    (transition ctx e).2 = ctx := by
  cases hf : findTransition ctx.currentState e with
  | none => simp [transition, hf]
  | some t =>
    simp only [transition, hf] at herr ⊢
    split at herr
    · simp at herr
    · split
      · simp_all
      · rfl

/-- Helper: a successful transition other than `QUANTITY_PROVIDED` from
`AWAITING_QUANTITY` has no action, leaves the caller's context untouched
and only changes `currentState` in the returned context. -/
theorem transition_ok_frame (ctx : ConversationContext) (e : ConversationEvent)
    (ctx' : ConversationContext) (hok : (transition ctx e).1 = Except.ok ctx')
    (hne : ¬(ctx.currentState = .AWAITING_QUANTITY ∧ e = .QUANTITY_PROVIDED)) :
    (transition ctx e).2 = ctx ∧ ctx' = { ctx with currentState := ctx'.currentState } := by
  cases hf : findTransition ctx.currentState e with
  | none => simp [transition, hf] at hok
  | some t =>
    have hmem : t ∈ transitions := List.mem_of_find?_eq_some hf
    have hp := List.find?_some hf
    simp only [Bool.and_eq_true, beq_iff_eq] at hp
    obtain ⟨hfrom, hev⟩ := hp
    have haction : t.action = none := by
      have hne' : ¬(t.fromState = .AWAITING_QUANTITY ∧ t.event = .QUANTITY_PROVIDED) := by
        rw [hfrom, hev]
        exact hne
      simp only [transitions, List.mem_cons, List.not_mem_nil, or_false] at hmem
      rcases hmem with rfl | rfl | rfl | rfl | rfl | rfl | rfl | rfl | rfl | rfl | rfl | rfl
      all_goals first
        | rfl
        | exact absurd ⟨rfl, rfl⟩ hne'
    cases hg : t.guard with
    | none =>
      have ht : transition ctx e = (Except.ok { ctx with currentState := t.toState }, ctx) := by
        simp [transition, hf, hg, haction]
      rw [ht] at hok
      injection hok with h2
      subst h2
      rw [ht]
      exact ⟨rfl, rfl⟩
    | some g =>
      cases hgc : g ctx with
      | false =>
        have ht : transition ctx e = (Except.error guardFailedError, ctx) := by
          simp [transition, hf, hg, hgc]
        rw [ht] at hok
        simp at hok
      | true =>
        have ht : transition ctx e = (Except.ok { ctx with currentState := t.toState }, ctx) := by
          simp [transition, hf, hg, hgc, haction]
        rw [ht] at hok
        injection hok with h2
        subst h2
        rw [ht]
        exact ⟨rfl, rfl⟩

/-- Helper: a `QUANTITY_PROVIDED` transition from `AWAITING_QUANTITY`
whose guard passes mutates the caller's `totalWeight` in place and
returns the mutated context moved to `CALCULATING`. -/
theorem transition_quantity_ok (ctx : ConversationContext)
    (hs : ctx.currentState = .AWAITING_QUANTITY)
    (hq : isValidQuantity ctx.quantity = true) :
    (transition ctx .QUANTITY_PROVIDED).2 =
      { ctx with totalWeight := some (ctx.quantity.getD 0 * (3/10)) } ∧
    (transition ctx .QUANTITY_PROVIDED).1 = Except.ok { ctx with
      totalWeight := some (ctx.quantity.getD 0 * (3/10)),
      currentState := .CALCULATING } := by
  have hf : findTransition ctx.currentState .QUANTITY_PROVIDED =
      some ⟨.AWAITING_QUANTITY, .QUANTITY_PROVIDED, .CALCULATING,
        some (fun c => isValidQuantity c.quantity),
        some (fun c => { c with totalWeight := some (c.quantity.getD 0 * (3/10)) })⟩ := by
    rw [hs]
    exact findTransition_quantity
  constructor
  · simp [transition, hf, hq]
  · simp [transition, hf, hq]

/-- Helper: a guard failure on `QUANTITY_PROVIDED` from
`AWAITING_QUANTITY` rejects with the `ValidationError` and leaves the
caller's context untouched. -/
theorem transition_quantity_guard_fail (ctx : ConversationContext)
    (hs : ctx.currentState = .AWAITING_QUANTITY)
    (hq : isValidQuantity ctx.quantity = false) :
    (transition ctx .QUANTITY_PROVIDED).1 = Except.error guardFailedError ∧
    (transition ctx .QUANTITY_PROVIDED).2 = ctx := by
  have hf : findTransition ctx.currentState .QUANTITY_PROVIDED =
      some ⟨.AWAITING_QUANTITY, .QUANTITY_PROVIDED, .CALCULATING,
        some (fun c => isValidQuantity c.quantity),
        some (fun c => { c with totalWeight := some (c.quantity.getD 0 * (3/10)) })⟩ := by
    rw [hs]
    exact findTransition_quantity
  constructor
  · simp [transition, hf, hq]
  · simp [transition, hf, hq]

/-- C4 counterexample: the claim says the input context's fields are
unchanged on every outcome, but a successful `QUANTITY_PROVIDED`
transition overwrites the caller's `totalWeight` in place (here from
`none` to `1.5`). -/
theorem c4_counterexample_input_mutated :
    (exampleCtx .AWAITING_QUANTITY (some 5)).totalWeight = none ∧
    (transition (exampleCtx .AWAITING_QUANTITY (some 5)) .QUANTITY_PROVIDED).2.totalWeight =
      some (3/2) ∧
    (transition (exampleCtx .AWAITING_QUANTITY (some 5)) .QUANTITY_PROVIDED).2 ≠
      exampleCtx .AWAITING_QUANTITY (some 5) := by
  have h := (transition_quantity_ok (exampleCtx .AWAITING_QUANTITY (some 5)) rfl (by decide)).1
  refine ⟨rfl, ?_, ?_⟩
  · rw [h]
    norm_num [exampleCtx]
  · rw [h]
    intro heq
    have := congrArg ConversationContext.totalWeight heq
    norm_num [exampleCtx] at this
    exact Option.noConfusion this

/-- C4 amended: `transition` leaves the caller's context unchanged on
every rejection and on every success except `QUANTITY_PROVIDED` from
`AWAITING_QUANTITY`, whose action overwrites the input's `totalWeight`
field in place; a new context carrying the state change is still returned
rather than the input being restated. -/
theorem c4_transition_frame (ctx : ConversationContext) (e : ConversationEvent) :
    (∀ err, (transition ctx e).1 = Except.error err → (transition ctx e).2 = ctx) ∧
    (∀ ctx', (transition ctx e).1 = Except.ok ctx' →
      ¬(ctx.currentState = .AWAITING_QUANTITY ∧ e = .QUANTITY_PROVIDED) →
      (transition ctx e).2 = ctx ∧ ctx' = { ctx with currentState := ctx'.currentState }) ∧
    (ctx.currentState = .AWAITING_QUANTITY → e = .QUANTITY_PROVIDED →
      isValidQuantity ctx.quantity = true →
      (transition ctx e).2 = { ctx with totalWeight := some (ctx.quantity.getD 0 * (3/10)) } ∧
      (transition ctx e).1 = Except.ok { ctx with
        totalWeight := some (ctx.quantity.getD 0 * (3/10)),
        currentState := .CALCULATING }) := by
  refine ⟨transition_error_frame ctx e, transition_ok_frame ctx e, fun hs he hq => ?_⟩
  subst he
  exact transition_quantity_ok ctx hs hq

/-- Witness for C4: quantity 5 mutates the caller's `totalWeight` to 1.5;
a `START_FREIGHT_QUERY` success leaves the caller's context untouched. -/
theorem c4_transition_frame_witness :
    (transition (exampleCtx .AWAITING_QUANTITY (some 5)) .QUANTITY_PROVIDED).2 =
      { (exampleCtx .AWAITING_QUANTITY (some 5)) with totalWeight := some ((5:ℚ) * (3/10)) } ∧
    (transition (exampleCtx .IDLE none) .START_FREIGHT_QUERY).2 = exampleCtx .IDLE none :=
  ⟨((c4_transition_frame (exampleCtx .AWAITING_QUANTITY (some 5)) .QUANTITY_PROVIDED).2.2
      rfl rfl (by decide)).1,
   ((c4_transition_frame (exampleCtx .IDLE none) .START_FREIGHT_QUERY).2.1
      { (exampleCtx .IDLE none) with currentState := .AWAITING_CEP } rfl (by decide)).1⟩

/-- C5 counterexample: the claim requires `QUANTITY_PROVIDED` to succeed
only for quantities within the upper bound 9999, but the guard is just
`quantity > 0`: quantity 10000 succeeds and moves to `CALCULATING`. -/
theorem c5_counterexample_no_upper_bound :
    (9999 : ℚ) < 10000 ∧
    (transition (exampleCtx .AWAITING_QUANTITY (some 10000)) .QUANTITY_PROVIDED).1 =
      Except.ok { (exampleCtx .AWAITING_QUANTITY (some 10000)) with
        currentState := ConversationState.CALCULATING, totalWeight := some 3000 } := by
  refine ⟨by norm_num, ?_⟩
  have h := (transition_quantity_ok (exampleCtx .AWAITING_QUANTITY (some 10000)) rfl (by decide)).2
  rw [h]
  norm_num [exampleCtx]

/-- C5 amended: from `AwaitingQuantity`, `QuantityProvided` succeeds if
and only if the context's quantity is present and strictly positive (no
integrality or upper-bound check); on success it moves to `CALCULATING`
with `totalWeight = quantity × 0.3`, and on guard failure it rejects with
a `ValidationError` and the caller's context (hence its state) is
unchanged. -/
theorem c5_quantity_guard (ctx : ConversationContext)
    (hs : ctx.currentState = .AWAITING_QUANTITY) :
    ((∃ q, ctx.quantity = some q ∧ 0 < q) →
      (transition ctx .QUANTITY_PROVIDED).1 =
        Except.ok { ctx with
          currentState := ConversationState.CALCULATING,
          totalWeight := some (ctx.quantity.getD 0 * (3/10)) }) ∧
    (¬(∃ q, ctx.quantity = some q ∧ 0 < q) →
      (transition ctx .QUANTITY_PROVIDED).1 = Except.error guardFailedError ∧
      (transition ctx .QUANTITY_PROVIDED).2 = ctx ∧
      guardFailedError.code = ErrorCode.VALIDATION_ERROR) := by
  constructor
  · intro hq
    rw [← isValidQuantity_iff] at hq
    exact (transition_quantity_ok ctx hs hq).2
  · intro hq
    rw [← isValidQuantity_iff, Bool.not_eq_true] at hq
    exact ⟨(transition_quantity_guard_fail ctx hs hq).1,
      (transition_quantity_guard_fail ctx hs hq).2, rfl⟩

/-- Helper: after deleting a key, looking it up misses. -/
theorem redisGet_redisDelete (r : RedisStore) (key : String) :
    redisGet (redisDelete r key) key = none := by
  unfold redisGet redisDelete
  rw [Option.map_eq_none', List.find?_eq_none]
  intro e he
  have := (List.mem_filter.mp he).2
  simp_all

/-- C2: when the tenant-scoped key misses but the legacy untenanted key
holds a session, `getSession` deletes the legacy key as a side effect and
reports the session as absent, and a subsequent `createSession` produces a
fresh tenant-scoped record in `IDLE` with `errorCount` 0 and a full TTL
(`expiresAt = now + ttlMs`, Redis TTL `ceil(ttlMs / 1000)`). -/
theorem c2_legacy_session_migration (cfg : AppConfig) (r : RedisStore) (m : MemStore)
    (tenantId phoneNumber : String) (now now2 : ℕ) (s : SessionData)
    (ht : tenantId ≠ "")
    (hmiss : redisGet r (sessionKey tenantId phoneNumber) = none)
    (hleg : redisGet r (oldSessionKey phoneNumber) = some s) :
    getSession cfg true r m tenantId phoneNumber now =
      (Except.ok none, redisDelete r (oldSessionKey phoneNumber), m) ∧
    redisGet (redisDelete r (oldSessionKey phoneNumber)) (oldSessionKey phoneNumber) = none ∧
    (cfg.env ≠ Env.production →
      ∃ sess,
        createSession cfg true true (redisDelete r (oldSessionKey phoneNumber)) m
            tenantId phoneNumber now2 =
          (Except.ok sess,
            (sessionKey tenantId phoneNumber, sess, ttlSeconds cfg) ::
              redisDelete r (oldSessionKey phoneNumber),
            (phoneNumber, sess) :: m) ∧
        sess.currentState = ConversationState.IDLE ∧
        sess.errorCount = some 0 ∧
        sess.tenantId = tenantId ∧
        sess.phoneNumber = phoneNumber ∧
        sess.createdAt = now2 ∧
        sess.updatedAt = now2 ∧
        sess.expiresAt = now2 + cfg.sessionTtlMs ∧
        sess.cep = none ∧ sess.quantity = none ∧ sess.totalWeight = none) := by
  have htb : (tenantId == "") = false := by
    simpa using ht
  refine ⟨?_, redisGet_redisDelete r (oldSessionKey phoneNumber), fun henv => ?_⟩
  · simp [getSession, htb, hmiss, hleg]
  · have henvb : (cfg.env == Env.production) = false := by
      simpa using henv
    refine ⟨{ phoneNumber := phoneNumber
              currentState := ConversationState.IDLE
              cep := none
              quantity := none
              totalWeight := none
              lastMessage := none
              errorCount := some 0
              metadata := none
              tenantId := tenantId
              createdAt := now2
              updatedAt := now2
              expiresAt := now2 + cfg.sessionTtlMs },
      ?_, rfl, rfl, rfl, rfl, rfl, rfl, rfl, rfl, rfl, rfl⟩
    simp [createSession, saveSession, htb, henvb, redisSet, memSet]

/-- Witness for C2: a store holding only the legacy key for the user. -/
theorem c2_legacy_session_migration_witness :
    getSession appConfig true legacyStore [] "tenant-1" "5511999999999" 0 =
      (Except.ok none, redisDelete legacyStore (oldSessionKey "5511999999999"), []) ∧
    (∃ sess,
      createSession appConfig true true (redisDelete legacyStore (oldSessionKey "5511999999999"))
          [] "tenant-1" "5511999999999" 50 =
        (Except.ok sess,
          (sessionKey "tenant-1" "5511999999999", sess, ttlSeconds appConfig) ::
            redisDelete legacyStore (oldSessionKey "5511999999999"),
          ("5511999999999", sess) :: []) ∧
      sess.currentState = ConversationState.IDLE ∧
      sess.errorCount = some 0 ∧
      sess.expiresAt = 50 + appConfig.sessionTtlMs) := by
  have h := c2_legacy_session_migration appConfig legacyStore [] "tenant-1" "5511999999999"
    0 50 legacySession (by decide) (by decide) (by decide)
  obtain ⟨h1, _, h3⟩ := h
  obtain ⟨sess, heq, hstate, herr, _, _, _, _, hexp, _⟩ := h3 (by decide)
  exact ⟨h1, sess, heq, hstate, herr, hexp⟩

/-- Witness for C5: quantity 5 succeeds into `CALCULATING` with total
weight 1.5; quantity 0 is rejected with the `ValidationError`. -/
theorem c5_quantity_guard_witness :
    (transition (exampleCtx .AWAITING_QUANTITY (some 5)) .QUANTITY_PROVIDED).1 =
      Except.ok { (exampleCtx .AWAITING_QUANTITY (some 5)) with
        currentState := ConversationState.CALCULATING,
        totalWeight := some ((5:ℚ) * (3/10)) } ∧
    (transition (exampleCtx .AWAITING_QUANTITY (some 0)) .QUANTITY_PROVIDED).1 =
      Except.error guardFailedError :=
  ⟨(c5_quantity_guard (exampleCtx .AWAITING_QUANTITY (some 5)) rfl).1
      ⟨5, rfl, by norm_num⟩,
   ((c5_quantity_guard (exampleCtx .AWAITING_QUANTITY (some 0)) rfl).2 (by
      rintro ⟨q, hq, hpos⟩
      injection hq with h
      subst h
      exact absurd hpos (lt_irrefl 0))).1⟩

/-- Helper: when every provider that the strategy queries returns an empty
list, `calculateFreight` (off the cache path) fails with `NoOptionsError`
and the cache and audit sink are untouched. -/
theorem calculateFreight_no_options (cfg : AppConfig) (me : Freight.MEProvider)
    (world : Freight.FreightWorld) (request : Freight.FreightRequest) (now : ℕ) (uuid : String)
    (tw : ℚ) (htw : tw = Freight.effectiveUnitWeight cfg request * request.quantity)
    (hvalid : Freight.validateRequest request = none)
    (hmiss : Freight.lookupCache world.cache
      (Freight.fingerprint request.destinationCep tw request.quantity) = none)
    (hme : (Freight.decideStrategy tw).strategy ≠ Freight.FreightStrategy.TABELA_ONLY →
      me ⟨request.destinationCep, tw, request.quantity, request.dimensions⟩ = Except.ok [])
    (htab : (Freight.decideStrategy tw).strategy ≠ Freight.FreightStrategy.MELHORENVIO_ONLY →
      Freight.tabelaCalculateShipping tw = []) :
    Freight.calculateFreight cfg me world request now uuid =
      (Except.error Freight.noOptionsError, world) := by
  subst htw
  cases hs : (Freight.decideStrategy
      (Freight.effectiveUnitWeight cfg request * request.quantity)).strategy with
  | MELHORENVIO_ONLY =>
    have h1 := hme (by simp [hs])
    simp [Freight.calculateFreight, hvalid, hmiss, Freight.fetchQuotes, hs, h1]
  | BOTH =>
    have h1 := hme (by simp [hs])
    have h2 := htab (by simp [hs])
    simp [Freight.calculateFreight, hvalid, hmiss, Freight.fetchQuotes, hs, h1, h2,
      Freight.tabelaToOptions]
  | TABELA_ONLY =>
    have h2 := htab (by simp [hs])
    simp [Freight.calculateFreight, hvalid, hmiss, Freight.fetchQuotes, hs, h2,
      Freight.tabelaToOptions]

/-- C8: if every provider queried for a valid, uncached request returns an
empty list, `calculateFreight` fails with `NoOptionsError`
(`NO_FREIGHT_OPTIONS`, a `BusinessError`, rethrown unchanged) and the
quote cache and the simulation audit sink are exactly as before the
call. -/
theorem c8_all_empty_no_options (cfg : AppConfig) (me : Freight.MEProvider)
    (world : Freight.FreightWorld) (request : Freight.FreightRequest) (now : ℕ) (uuid : String)
    (tw : ℚ) (htw : tw = Freight.effectiveUnitWeight cfg request * request.quantity)
    (hvalid : Freight.validateRequest request = none)
    (hmiss : Freight.lookupCache world.cache
      (Freight.fingerprint request.destinationCep tw request.quantity) = none)
    (hme : (Freight.decideStrategy tw).strategy ≠ Freight.FreightStrategy.TABELA_ONLY →
      me ⟨request.destinationCep, tw, request.quantity, request.dimensions⟩ = Except.ok [])
    (htab : (Freight.decideStrategy tw).strategy ≠ Freight.FreightStrategy.MELHORENVIO_ONLY →
      Freight.tabelaCalculateShipping tw = []) :
    Freight.calculateFreight cfg me world request now uuid =
      (Except.error Freight.noOptionsError, world) ∧
    Freight.noOptionsError.code = ErrorCode.NO_FREIGHT_OPTIONS ∧
    Freight.noOptionsError.cls = ErrCls.business :=
  ⟨calculateFreight_no_options cfg me world request now uuid tw htw hvalid hmiss hme htab,
    rfl, rfl⟩

/-- Witness for C8: the light request (total weight 1.5 kg, Melhor Envio
only) against a provider that returns no quotes. -/
theorem c8_all_empty_no_options_witness :
    Freight.calculateFreight appConfig Freight.emptyProvider Freight.emptyWorld
        Freight.lightRequest 0 "sim-1" =
      (Except.error Freight.noOptionsError, Freight.emptyWorld) := by
  have hstrat : (Freight.decideStrategy (3/2)).strategy =
      Freight.FreightStrategy.MELHORENVIO_ONLY := by
    norm_num [Freight.decideStrategy]
  exact (c8_all_empty_no_options appConfig Freight.emptyProvider Freight.emptyWorld
    Freight.lightRequest 0 "sim-1" (3/2)
    (by norm_num [Freight.effectiveUnitWeight, appConfig, Freight.lightRequest])
    (by decide) rfl (fun _ => rfl)
    (fun hcon => absurd hstrat hcon)).1

/-- C10: a valid, uncached request whose total weight exceeds 30 kg always
fails with `NoOptionsError`: the strategy routes to the heavy-table
provider alone, and that provider returns no quotes above 30 kg, so the
merged candidate set is empty. -/
theorem c10_heavy_weight_always_no_options (cfg : AppConfig) (me : Freight.MEProvider)
    (world : Freight.FreightWorld) (request : Freight.FreightRequest) (now : ℕ) (uuid : String)
    (tw : ℚ) (htw : tw = Freight.effectiveUnitWeight cfg request * request.quantity)
    (hvalid : Freight.validateRequest request = none)
    (hmiss : Freight.lookupCache world.cache
      (Freight.fingerprint request.destinationCep tw request.quantity) = none)
    (hheavy : 30 < tw) :
    (Freight.decideStrategy tw).strategy = Freight.FreightStrategy.TABELA_ONLY ∧
    Freight.tabelaCalculateShipping tw = [] ∧
    Freight.calculateFreight cfg me world request now uuid =
      (Except.error Freight.noOptionsError, world) := by
  have hstrat : (Freight.decideStrategy tw).strategy = Freight.FreightStrategy.TABELA_ONLY := by
    have h0 : ¬ tw ≤ 10 := by linarith
    have h1 : ¬ (10 < tw ∧ tw ≤ 15) := by
      rintro ⟨_, h⟩
      linarith
    simp [Freight.decideStrategy, h0, h1]
  have htab : Freight.tabelaCalculateShipping tw = [] := by
    have : ¬ tw ≤ 30 := by linarith
    simp [Freight.tabelaCalculateShipping, this]
  refine ⟨hstrat, htab, ?_⟩
  exact calculateFreight_no_options cfg me world request now uuid tw htw hvalid hmiss
    (fun hcon => absurd hstrat hcon) (fun _ => htab)

/-- Witness for C10: quantity 101 at the default unit weight 0.3 kg gives
total weight 30.3 kg. -/
theorem c10_heavy_weight_always_no_options_witness :
    Freight.tabelaCalculateShipping (303/10) = [] ∧
    Freight.calculateFreight appConfig Freight.emptyProvider Freight.emptyWorld
        Freight.heavyRequest 0 "sim-2" =
      (Except.error Freight.noOptionsError, Freight.emptyWorld) := by
  have h := c10_heavy_weight_always_no_options appConfig Freight.emptyProvider
    Freight.emptyWorld Freight.heavyRequest 0 "sim-2" (303/10)
    (by norm_num [Freight.effectiveUnitWeight, appConfig, Freight.heavyRequest])
    (by decide) rfl (by norm_num)
  exact ⟨h.2.1, h.2.2⟩

/-- Helper: `priceLE` is transitive. -/
theorem priceLE_trans (a b c : Engine.FreightOption)
    (h1 : Engine.priceLE a b) (h2 : Engine.priceLE b c) : Engine.priceLE a c := by
  simp only [Engine.priceLE, decide_eq_true_eq] at h1 h2 ⊢
  exact le_trans h1 h2

/-- Helper: `priceLE` is total. -/
theorem priceLE_total (a b : Engine.FreightOption) :
    Engine.priceLE a b || Engine.priceLE b a := by
  simp only [Engine.priceLE, Bool.or_eq_true, decide_eq_true_eq]
  exact le_total a.price b.price

/-- Helper: `timeLE` is transitive. -/
theorem timeLE_trans (a b c : Engine.FreightOption)
    (h1 : Engine.timeLE a b) (h2 : Engine.timeLE b c) : Engine.timeLE a c := by
  simp only [Engine.timeLE, decide_eq_true_eq] at h1 h2 ⊢
  exact le_trans h1 h2

/-- Helper: `timeLE` is total. -/
theorem timeLE_total (a b : Engine.FreightOption) :
    Engine.timeLE a b || Engine.timeLE b a := by
  simp only [Engine.timeLE, Bool.or_eq_true, decide_eq_true_eq]
  exact le_total a.deliveryDays b.deliveryDays

/-- Helper: the head of a stable sort of a non-empty list is a member and
a `le`-lower bound of the list. -/
theorem headI_mergeSort_min {α : Type} [Inhabited α] (le : α → α → Bool)
    (htrans : ∀ a b c, le a b → le b c → le a c)
    (htotal : ∀ a b, le a b || le b a)
    (l : List α) (hne : l ≠ []) :
    (l.mergeSort le).headI ∈ l ∧ ∀ x ∈ l, le ((l.mergeSort le).headI) x := by
  have hsorted := List.sorted_mergeSort htrans htotal l
  cases hm : l.mergeSort le with
  | nil =>
    have hp : List.Perm ([] : List α) l := hm ▸ List.mergeSort_perm l le
    exact absurd hp.symm.eq_nil hne
  | cons h t =>
    constructor
    · have hh : h ∈ l.mergeSort le := by
        rw [hm]
        exact List.mem_cons_self h t
      have := List.mem_mergeSort.mp hh
      simpa [hm] using this
    · intro x hx
      have hx' : x ∈ h :: t := by
        rw [← hm]
        exact List.mem_mergeSort.mpr hx
      simp only [List.headI_cons]
      rcases List.mem_cons.mp hx' with rfl | hxt
      · have := htotal x x
        simpa using this
      · rw [hm] at hsorted
        exact (List.pairwise_cons.mp hsorted).1 x hxt

/-- Helper: membership in the score-ranked projection is membership in the
scored list. -/
theorem mem_ranked_iff (W : List Engine.FreightOption) (sc : Engine.FreightOption → ℚ)
    (x : Engine.FreightOption) :
    (x ∈ ((W.map (fun o => (o, sc o))).mergeSort Engine.scoreLE).map (fun p => p.1)) ↔
      x ∈ W := by
  simp

/-- Helper: the candidates `calculateRanking` works over, and how its
result fields are built from them. -/
theorem calculateRanking_fields (options : List Engine.FreightOption)
    (strategy : Engine.RankingStrategy) (context : Option Engine.EconomicContext)
    (hne : options ≠ []) :
    ∃ sc : Engine.FreightOption → ℚ,
      (Engine.calculateRanking options strategy context).cheapestOption =
        some (((match context with
          | some ctx => options.map (Engine.applyEconomics ctx)
          | none => options).mergeSort Engine.priceLE).headI) ∧
      (Engine.calculateRanking options strategy context).fastestOption =
        some (((match context with
          | some ctx => options.map (Engine.applyEconomics ctx)
          | none => options).mergeSort Engine.timeLE).headI) ∧
      (Engine.calculateRanking options strategy context).options =
        (((match context with
          | some ctx => options.map (Engine.applyEconomics ctx)
          | none => options).map (fun o => (o, sc o))).mergeSort Engine.scoreLE).map
            (fun p : Engine.FreightOption × ℚ => p.1) := by
  obtain ⟨o₀, rest, rfl⟩ := List.exists_cons_of_ne_nil hne
  cases context with
  | none => exact ⟨_, rfl, rfl, rfl⟩
  | some ec => exact ⟨_, rfl, rfl, rfl⟩

/-- Helper: the economics attached by `applyEconomics`, as a function of
the candidate's price. -/
theorem applyEconomics_spec (ec : Engine.EconomicContext) (o : Engine.FreightOption) :
    (Engine.applyEconomics ec o).economics = some
      ⟨ec.sellingPrice - o.price,
       ec.sellingPrice - o.price - ec.productCost - ec.operationalCost.getD 0,
       if 0 < ec.sellingPrice then
         (ec.sellingPrice - o.price - ec.productCost - ec.operationalCost.getD 0) /
           ec.sellingPrice * 100
       else 0⟩ ∧
    (Engine.applyEconomics ec o).price = o.price :=
  ⟨rfl, rfl⟩

/-- Helper: the margin formula is antitone in the candidate price. -/
theorem marginFormula_antitone (ec : Engine.EconomicContext) (p₁ p₂ : ℚ) (h : p₁ ≤ p₂) :
    (if 0 < ec.sellingPrice then
      (ec.sellingPrice - p₂ - ec.productCost - ec.operationalCost.getD 0) /
        ec.sellingPrice * 100
    else 0) ≤
    (if 0 < ec.sellingPrice then
      (ec.sellingPrice - p₁ - ec.productCost - ec.operationalCost.getD 0) /
        ec.sellingPrice * 100
    else 0) := by
  split
  · next hsp =>
    have hnum : ec.sellingPrice - p₂ - ec.productCost - ec.operationalCost.getD 0 ≤
        ec.sellingPrice - p₁ - ec.productCost - ec.operationalCost.getD 0 := by linarith
    exact mul_le_mul_of_nonneg_right ((div_le_div_iff_of_pos_right hsp).mpr hnum) (by norm_num)
  · exact le_refl 0

/-- C7: for every non-empty candidate list, `calculateRanking` reports a
cheapest option (minimal price) and a fastest option (minimal
`deliveryDays`), both present among the ranked options; when an economic
context is supplied, the reported cheapest option carries economics whose
`marginPercent` is maximal over all ranked candidates (margin is antitone
in price, so the cheapest candidate attains the best margin); and the
cheapest/fastest reports are independent of the scoring weights. -/
theorem c7_ranking_extremes (options : List Engine.FreightOption)
    (strategy : Engine.RankingStrategy) (context : Option Engine.EconomicContext)
    (hne : options ≠ []) :
    (∃ c, (Engine.calculateRanking options strategy context).cheapestOption = some c ∧
      c ∈ (Engine.calculateRanking options strategy context).options ∧
      ∀ o ∈ (Engine.calculateRanking options strategy context).options, c.price ≤ o.price) ∧
    (∃ f, (Engine.calculateRanking options strategy context).fastestOption = some f ∧
      f ∈ (Engine.calculateRanking options strategy context).options ∧
      ∀ o ∈ (Engine.calculateRanking options strategy context).options,
        f.deliveryDays ≤ o.deliveryDays) ∧
    (∀ ec, context = some ec →
      ∃ c e, (Engine.calculateRanking options strategy context).cheapestOption = some c ∧
        c.economics = some e ∧
        ∀ o ∈ (Engine.calculateRanking options strategy context).options,
          ∀ eo, o.economics = some eo → eo.marginPercent ≤ e.marginPercent) ∧
    (∀ strategy' : Engine.RankingStrategy,
      (Engine.calculateRanking options strategy' context).cheapestOption =
        (Engine.calculateRanking options strategy context).cheapestOption ∧
      (Engine.calculateRanking options strategy' context).fastestOption =
        (Engine.calculateRanking options strategy context).fastestOption) := by
  obtain ⟨sc, hch, hfa, hopts⟩ := calculateRanking_fields options strategy context hne
  have hWne : (match context with
      | some ctx => options.map (Engine.applyEconomics ctx)
      | none => options) ≠ [] := by
    cases context with
    | none => exact hne
    | some ec => simpa using hne
  have hmemW : ∀ x, x ∈ (Engine.calculateRanking options strategy context).options ↔
      x ∈ (match context with
        | some ctx => options.map (Engine.applyEconomics ctx)
        | none => options) := by
    intro x
    rw [hopts]
    exact mem_ranked_iff _ sc x
  have hcheap := headI_mergeSort_min Engine.priceLE priceLE_trans priceLE_total _ hWne
  have hfast := headI_mergeSort_min Engine.timeLE timeLE_trans timeLE_total _ hWne
  refine ⟨⟨_, hch, (hmemW _).mpr hcheap.1, ?_⟩, ⟨_, hfa, (hmemW _).mpr hfast.1, ?_⟩,
    fun ec hec => ?_, fun strategy' => ?_⟩
  · intro o ho
    have := hcheap.2 o ((hmemW o).mp ho)
    simpa [Engine.priceLE, decide_eq_true_eq] using this
  · intro o ho
    have := hfast.2 o ((hmemW o).mp ho)
    simpa [Engine.timeLE, decide_eq_true_eq] using this
  · subst hec
    obtain ⟨sc2, hch2, _, hopts2⟩ := calculateRanking_fields options strategy (some ec) hne
    have hWne2 : options.map (Engine.applyEconomics ec) ≠ [] := by simpa using hne
    have hmin := headI_mergeSort_min Engine.priceLE priceLE_trans priceLE_total
      (options.map (Engine.applyEconomics ec)) hWne2
    obtain ⟨orig, _, hcorig⟩ := List.mem_map.mp hmin.1
    refine ⟨((options.map (Engine.applyEconomics ec)).mergeSort Engine.priceLE).headI,
      ⟨ec.sellingPrice - orig.price,
       ec.sellingPrice - orig.price - ec.productCost - ec.operationalCost.getD 0,
       if 0 < ec.sellingPrice then
         (ec.sellingPrice - orig.price - ec.productCost - ec.operationalCost.getD 0) /
           ec.sellingPrice * 100
       else 0⟩,
      hch2, ?_, ?_⟩
    · rw [← hcorig]
      exact (applyEconomics_spec ec orig).1
    · intro o ho eo heo
      have hoW : o ∈ options.map (Engine.applyEconomics ec) := by
        have h' : (Engine.calculateRanking options strategy (some ec)).options =
            (((options.map (Engine.applyEconomics ec)).map
              (fun o => (o, sc2 o))).mergeSort Engine.scoreLE).map
                (fun p : Engine.FreightOption × ℚ => p.1) := hopts2
        rw [h'] at ho
        exact (mem_ranked_iff _ sc2 o).mp ho
      obtain ⟨orig', _, horig'⟩ := List.mem_map.mp hoW
      have heo' : (Engine.applyEconomics ec orig').economics = some eo := by
        rw [horig']
        exact heo
      rw [(applyEconomics_spec ec orig').1] at heo'
      injection heo' with heo''
      have hple : orig.price ≤ orig'.price := by
        have h1 := hmin.2 o hoW
        have h2 : ((options.map (Engine.applyEconomics ec)).mergeSort
            Engine.priceLE).headI.price = orig.price := by
          rw [← hcorig]
          exact (applyEconomics_spec ec orig).2
        have h3 : o.price = orig'.price := by
          rw [← horig']
          exact (applyEconomics_spec ec orig').2
        simp only [Engine.priceLE, decide_eq_true_eq] at h1
        rw [h2, h3] at h1
        exact h1
      rw [← heo'']
      exact marginFormula_antitone ec orig.price orig'.price hple
  · obtain ⟨sc', hch', hfa', _⟩ := calculateRanking_fields options strategy' context hne
    exact ⟨hch'.trans hch.symm, hfa'.trans hfa.symm⟩

/-- Witness for C7: the spec's ranking scenario candidates with an
economic context supplied. -/
theorem c7_ranking_extremes_witness :
    ∃ c, (Engine.calculateRanking Engine.specCandidates Engine.DEFAULT_STRATEGY
        (some Engine.exampleContext)).cheapestOption = some c ∧
      c ∈ (Engine.calculateRanking Engine.specCandidates Engine.DEFAULT_STRATEGY
        (some Engine.exampleContext)).options ∧
      ∀ o ∈ (Engine.calculateRanking Engine.specCandidates Engine.DEFAULT_STRATEGY
        (some Engine.exampleContext)).options, c.price ≤ o.price :=
  (c7_ranking_extremes Engine.specCandidates Engine.DEFAULT_STRATEGY
    (some Engine.exampleContext) (by decide)).1

/-- C1 counterexample: for the scenario quotes (prices 20/40/25/21 with
delivery times 10/3/8/9 days, weight 1.5 kg, cap 3), `calculateFreight`
returns the price-ascending prefix `[20, 21, 25]`, while the Ranking
Engine's ascending-score order is `[40, 25, 21, 20]` — the service result
is not ordered by the weighted score, and the globally fastest candidate
(3 days, price 40, minimal delivery time among all four quotes) is dropped
by the cap and reported nowhere in the result. -/
theorem c1_counterexample_not_ranking_ordered :
    ((Freight.calculateFreight appConfig Freight.scenarioProvider Freight.emptyWorld
        Freight.lightRequest 0 "sim-1").1.map (fun r => r.options.map (fun o => o.price))) =
      Except.ok [20, 21, 25] ∧
    (Engine.calculateRanking Engine.scenarioCandidates Engine.DEFAULT_STRATEGY none).options.map
        (fun o => o.price) = [40, 25, 21, 20] ∧
    Freight.scenarioFastest ∈ Freight.scenarioQuotes ∧
    Freight.scenarioQuotes.all
      (fun o => decide (Freight.scenarioFastest.deliveryTime ≤ o.deliveryTime)) = true ∧
    ((Freight.calculateFreight appConfig Freight.scenarioProvider Freight.emptyWorld
        Freight.lightRequest 0 "sim-1").1.map
          (fun r => decide (Freight.scenarioFastest ∈ r.options))) = Except.ok false := by
  have hval : Freight.validateRequest ⟨"01001000", 5, none, none⟩ = none := by decide
  have hfetch : Freight.fetchQuotes Freight.scenarioProvider ⟨"01001000", 5, none, none⟩ (3/2)
      Freight.FreightStrategy.MELHORENVIO_ONLY = Except.ok Freight.scenarioQuotes := rfl
  have htw : Freight.effectiveUnitWeight appConfig ⟨"01001000", 5, none, none⟩ * (5:ℚ) = 3/2 := by
    norm_num [Freight.effectiveUnitWeight, appConfig]
  have hsort : Freight.sortAndLimitOptions appConfig Freight.scenarioQuotes =
      [⟨"me-1", "Carrier A", "Service A", 20, 10, "melhorenvio"⟩,
       ⟨"me-4", "Carrier D", "Service D", 21, 9, "melhorenvio"⟩,
       ⟨"me-3", "Carrier C", "Service C", 25, 8, "melhorenvio"⟩] := by
    norm_num [Freight.sortAndLimitOptions, Freight.scenarioQuotes, Freight.optionLE,
      List.mergeSort, appConfig]
  refine ⟨?_, ?_, ?_, ?_, ?_⟩
  · norm_num [Freight.calculateFreight, Freight.lightRequest, Freight.emptyWorld, hval, htw,
      Freight.lookupCache, Freight.decideStrategy, hfetch, hsort, Except.map]
  · norm_num [Engine.calculateRanking, Engine.scenarioCandidates, Engine.DEFAULT_STRATEGY,
      Engine.priceLE, Engine.timeLE, Engine.scoreLE, Engine.marginOf, Engine.marginDesc,
      List.mergeSort]
  · simp [Freight.scenarioQuotes, Freight.scenarioFastest]
  · norm_num [Freight.scenarioQuotes, Freight.scenarioFastest]
  · norm_num [Freight.calculateFreight, Freight.lightRequest, Freight.emptyWorld, hval, htw,
      Freight.lookupCache, Freight.decideStrategy, hfetch, hsort, Except.map,
      Freight.scenarioFastest]

/-- Helper: `optionLE` is transitive. -/
theorem optionLE_trans (a b c : Freight.FreightOption)
    (h1 : Freight.optionLE a b) (h2 : Freight.optionLE b c) : Freight.optionLE a c := by
  simp only [Freight.optionLE, Bool.or_eq_true, Bool.and_eq_true, decide_eq_true_eq] at h1 h2 ⊢
  rcases h1 with h1 | ⟨h1e, h1t⟩
  · rcases h2 with h2 | ⟨h2e, h2t⟩
    · exact Or.inl (lt_trans h1 h2)
    · exact Or.inl (h2e ▸ h1)
  · rcases h2 with h2 | ⟨h2e, h2t⟩
    · exact Or.inl (h1e ▸ h2)
    · exact Or.inr ⟨h1e.trans h2e, le_trans h1t h2t⟩

/-- Helper: `optionLE` is total. -/
theorem optionLE_total (a b : Freight.FreightOption) :
    Freight.optionLE a b || Freight.optionLE b a := by
  simp only [Freight.optionLE, Bool.or_eq_true, Bool.and_eq_true, decide_eq_true_eq]
  rcases lt_trichotomy a.price b.price with h | h | h
  · exact Or.inl (Or.inl h)
  · rcases le_total a.deliveryTime b.deliveryTime with ht | ht
    · exact Or.inl (Or.inr ⟨h, ht⟩)
    · exact Or.inr (Or.inr ⟨h.symm, ht⟩)
  · exact Or.inr (Or.inl h)

/-- C1 amended: for every valid request not served from cache whose merged
provider candidate set is non-empty (and a positive cap), the service
returns the candidates sorted ascending by price with ties broken by
ascending delivery time, capped to `maxOptionsToReturn`; the Ranking
Engine's weighted score plays no part, and no extreme beyond the cap is
retained anywhere in the result. -/
theorem c1_price_sorted_capped (cfg : AppConfig) (me : Freight.MEProvider)
    (world : Freight.FreightWorld) (request : Freight.FreightRequest) (now : ℕ) (uuid : String)
    (tw : ℚ) (htw : tw = Freight.effectiveUnitWeight cfg request * request.quantity)
    (hvalid : Freight.validateRequest request = none)
    (hmiss : Freight.lookupCache world.cache
      (Freight.fingerprint request.destinationCep tw request.quantity) = none)
    (opts : List Freight.FreightOption) (hne : opts ≠ [])
    (hfetch : Freight.fetchQuotes me request tw (Freight.decideStrategy tw).strategy =
      Except.ok opts)
    (hcap : 0 < cfg.maxOptionsToReturn) :
    ∃ r world',
      Freight.calculateFreight cfg me world request now uuid = (Except.ok r, world') ∧
      r.options = (opts.mergeSort Freight.optionLE).take cfg.maxOptionsToReturn ∧
      List.Pairwise (fun a b => Freight.optionLE a b = true) r.options ∧
      r.options.length = min cfg.maxOptionsToReturn opts.length ∧
      (∀ o ∈ r.options, o ∈ opts) ∧
      r.totalWeight = tw ∧ r.success = true ∧ r.calculatedAt = now := by
  subst htw
  cases hs : Freight.sortAndLimitOptions cfg opts with
  | nil =>
    exfalso
    have := congrArg List.length hs
    simp only [Freight.sortAndLimitOptions, List.length_take, List.length_mergeSort,
      List.length_nil] at this
    rcases Nat.min_eq_zero_iff.mp this with h | h
    · omega
    · exact hne (List.length_eq_zero.mp h)
  | cons best rest =>
    have h1 : (Freight.calculateFreight cfg me world request now uuid).1 =
        Except.ok ⟨true, best :: rest,
          Freight.effectiveUnitWeight cfg request * request.quantity, request, now, none⟩ := by
      simp only [Freight.calculateFreight, hvalid, hmiss, hfetch, hs]
    refine ⟨⟨true, best :: rest,
        Freight.effectiveUnitWeight cfg request * request.quantity, request, now, none⟩,
      (Freight.calculateFreight cfg me world request now uuid).2,
      ?_, ?_, ?_, ?_, ?_, rfl, rfl, rfl⟩
    · exact Prod.ext h1 rfl
    · rw [← hs]
      rfl
    · show List.Pairwise _ (best :: rest)
      rw [← hs]
      exact List.Pairwise.sublist (List.take_sublist _ _)
        (List.sorted_mergeSort optionLE_trans optionLE_total opts)
    · show (best :: rest).length = _
      rw [← hs]
      simp [Freight.sortAndLimitOptions, List.length_take]
    · intro o ho
      rw [show (best :: rest) = Freight.sortAndLimitOptions cfg opts from hs.symm] at ho
      have : o ∈ opts.mergeSort Freight.optionLE :=
        List.mem_of_mem_take (by simpa [Freight.sortAndLimitOptions] using ho)
      exact List.mem_mergeSort.mp this

/-- Witness for C1's amended statement at the scenario input. -/
theorem c1_price_sorted_capped_witness :
    ∃ r world',
      Freight.calculateFreight appConfig Freight.scenarioProvider Freight.emptyWorld
          Freight.lightRequest 0 "sim-1" = (Except.ok r, world') ∧
      List.Pairwise (fun a b => Freight.optionLE a b = true) r.options ∧
      r.options.length = min appConfig.maxOptionsToReturn Freight.scenarioQuotes.length := by
  have hstrat : (Freight.decideStrategy (3/2)).strategy =
      Freight.FreightStrategy.MELHORENVIO_ONLY := by
    norm_num [Freight.decideStrategy]
  have hfetch : Freight.fetchQuotes Freight.scenarioProvider Freight.lightRequest (3/2)
      (Freight.decideStrategy (3/2)).strategy = Except.ok Freight.scenarioQuotes := by
    rw [hstrat]
    exact rfl
  obtain ⟨r, w, h1, _, h3, h4, _⟩ := c1_price_sorted_capped appConfig Freight.scenarioProvider
    Freight.emptyWorld Freight.lightRequest 0 "sim-1" (3/2)
    (by norm_num [Freight.effectiveUnitWeight, appConfig, Freight.lightRequest])
    (by decide) rfl Freight.scenarioQuotes (by simp [Freight.scenarioQuotes]) hfetch
    (by norm_num [appConfig])
  exact ⟨r, w, h1, h3, h4⟩

/-- Helper: a list of length 5 is five explicit elements. -/
theorem list_length_five {α : Type} {l : List α} (h : l.length = 5) :
    ∃ a b c d e, l = [a, b, c, d, e] := by
  match l, h with
  | [a, b, c, d, e], _ => exact ⟨a, b, c, d, e, rfl⟩

/-- Helper: a list of length 3 is three explicit elements. -/
theorem list_length_three {α : Type} {l : List α} (h : l.length = 3) :
    ∃ a b c, l = [a, b, c] := by
  match l, h with
  | [a, b, c], _ => exact ⟨a, b, c, rfl⟩

/-- Helper: a digit is not a hyphen. -/
theorem digit_ne_hyphen {c : Char} (h : c.isDigit = true) : ¬(c = '-') := by
  intro heq
  rw [heq] at h
  exact absurd h (by decide)

/-- Helper: the word-boundary-after condition from the declarative form. -/
theorem boundaryAfter_of {post : List Char}
    (h : post = [] ∨ ∃ c rest, post = c :: rest ∧ Classifier.isWordChar c = false) :
    Classifier.boundaryAfter post = true := by
  rcases h with rfl | ⟨c, rest, rfl, hc⟩
  · rfl
  · simp [Classifier.boundaryAfter, hc]

/-- Helper: what a successful `cepTail` returns. -/
theorem cepTail_spec {l tl : List Char} (h : Classifier.cepTail l = some tl) :
    tl.length = 3 ∧ ∀ c ∈ tl, c.isDigit = true := by
  unfold Classifier.cepTail at h
  split at h
  · next f g hch rest =>
    split at h
    · next hcond =>
      injection h with h'
      subst h'
      simp only [Bool.and_eq_true] at hcond
      refine ⟨rfl, ?_⟩
      intro c hc
      simp only [List.mem_cons, List.not_mem_nil, or_false] at hc
      rcases hc with rfl | rfl | rfl
      · exact hcond.1.1.1
      · exact hcond.1.1.2
      · exact hcond.1.2
    · exact Option.noConfusion h
  · exact Option.noConfusion h

/-- Helper: `cepTail` succeeds on three digits followed by a boundary. -/
theorem cepTail_of {f g h : Char} {post : List Char}
    (hf : f.isDigit = true) (hg : g.isDigit = true) (hh : h.isDigit = true)
    (hb : Classifier.boundaryAfter post = true) :
    Classifier.cepTail (f :: g :: h :: post) = some [f, g, h] := by
  simp [Classifier.cepTail, hf, hg, hh, hb]

/-- Helper: what a successful `cepMatchAt` returns: eight digits. -/
theorem cepMatchAt_spec {l code : List Char} (h : Classifier.cepMatchAt l = some code) :
    code.length = 8 ∧ ∀ c ∈ code, c.isDigit = true := by
  unfold Classifier.cepMatchAt at h
  split at h
  · next a b c d e rest =>
    split at h
    · next hd5 =>
      simp only [Bool.and_eq_true] at hd5
      split at h
      · exact Option.noConfusion h
      · next x rest1 =>
        rw [Option.map_eq_some'] at h
        obtain ⟨tl, htl, hcode⟩ := h
        have hspec : tl.length = 3 ∧ ∀ ch ∈ tl, ch.isDigit = true := by
          split at htl
          · exact cepTail_spec htl
          · exact cepTail_spec htl
        subst hcode
        constructor
        · simp [hspec.1]
        · intro ch hch
          simp only [List.mem_cons] at hch
          rcases hch with rfl | rfl | rfl | rfl | rfl | hch
          · exact hd5.1.1.1.1
          · exact hd5.1.1.1.2
          · exact hd5.1.1.2
          · exact hd5.1.2
          · exact hd5.2
          · exact hspec.2 ch hch
    · exact Option.noConfusion h
  · exact Option.noConfusion h

/-- Helper: every code returned by the CEP scanner is eight digits. -/
theorem cepScan_spec : ∀ (l : List Char) (prev : Option Char) (code : List Char),
    Classifier.cepScan prev l = some code →
    code.length = 8 ∧ ∀ c ∈ code, c.isDigit = true := by
  intro l
  induction l with
  | nil =>
    intro prev code h
    exact Option.noConfusion h
  | cons c cs ih =>
    intro prev code h
    unfold Classifier.cepScan at h
    cases hb : Classifier.boundaryOkBefore prev with
    | true =>
      cases hx : Classifier.cepMatchAt (c :: cs) with
      | some code' =>
        simp only [hb, hx, if_true] at h
        injection h with h'
        subst h'
        exact cepMatchAt_spec hx
      | none =>
        simp only [hb, hx, if_true] at h
        exact ih _ _ h
    | false =>
      simp only [hb, Bool.false_eq_true, if_false] at h
      exact ih _ _ h

/-- Helper: `cepMatchAt` succeeds on a delimited occurrence suffix. -/
theorem cepMatchAt_of_delimited {d5 mid d3 post : List Char}
    (h5 : d5.length = 5) (h5d : ∀ c ∈ d5, c.isDigit = true)
    (hmid : mid = [] ∨ mid = ['-'])
    (h3 : d3.length = 3) (h3d : ∀ c ∈ d3, c.isDigit = true)
    (hb : Classifier.boundaryAfter post = true) :
    Classifier.cepMatchAt (d5 ++ mid ++ d3 ++ post) ≠ none := by
  obtain ⟨a, b, c, d, e, rfl⟩ := list_length_five h5
  obtain ⟨f, g, h, rfl⟩ := list_length_three h3
  have ha := h5d a (by simp)
  have hbb := h5d b (by simp)
  have hcc := h5d c (by simp)
  have hdd := h5d d (by simp)
  have hee := h5d e (by simp)
  have hf := h3d f (by simp)
  have hg := h3d g (by simp)
  have hhh := h3d h (by simp)
  rcases hmid with rfl | rfl
  · show Classifier.cepMatchAt (a :: b :: c :: d :: e :: (f :: g :: h :: post)) ≠ none
    unfold Classifier.cepMatchAt
    simp only [ha, hbb, hcc, hdd, hee, Bool.and_self, if_true]
    rw [if_neg (digit_ne_hyphen hf)]
    rw [cepTail_of hf hg hhh hb]
    simp
  · show Classifier.cepMatchAt (a :: b :: c :: d :: e :: ('-' :: f :: g :: h :: post)) ≠ none
    unfold Classifier.cepMatchAt
    simp only [ha, hbb, hcc, hdd, hee, Bool.and_self, if_true]
    rw [cepTail_of hf hg hhh hb]
    simp

/-- Helper: the left-to-right scan succeeds whenever some position carries
a boundary-delimited match. -/
theorem cepScan_isSome_of_delimited : ∀ (pre : List Char) (prev : Option Char)
    (suffix : List Char),
    (pre = [] → (∀ q, prev = some q → Classifier.isWordChar q = false)) →
    (∀ p, pre.getLast? = some p → Classifier.isWordChar p = false) →
    Classifier.cepMatchAt suffix ≠ none →
    (Classifier.cepScan prev (pre ++ suffix)).isSome = true := by
  intro pre
  induction pre with
  | nil =>
    intro prev suffix h0 _ hm
    simp only [List.nil_append]
    cases hsuf : suffix with
    | nil =>
      rw [hsuf] at hm
      exact absurd rfl hm
    | cons c cs =>
      subst hsuf
      have hbd : Classifier.boundaryOkBefore prev = true := by
        cases prev with
        | none => rfl
        | some q => simp [Classifier.boundaryOkBefore, h0 rfl q rfl]
      unfold Classifier.cepScan
      cases hx : Classifier.cepMatchAt (c :: cs) with
      | none => exact absurd hx hm
      | some code => simp [hbd, hx]
  | cons p pre' ih =>
    intro prev suffix h0 hlast hm
    show (Classifier.cepScan prev (p :: (pre' ++ suffix))).isSome = true
    unfold Classifier.cepScan
    cases hx : (if Classifier.boundaryOkBefore prev = true
        then Classifier.cepMatchAt (p :: (pre' ++ suffix)) else none) with
    | some code => simp [hx]
    | none =>
      simp only [hx]
      apply ih (some p) suffix
      · intro hpre' q hq
        injection hq with hq'
        subst hq'
        apply hlast
        subst hpre'
        rfl
      · intro q hq
        apply hlast
        cases pre' with
        | nil => exact Option.noConfusion hq
        | cons r rs => simpa using hq
      · exact hm

/-- C9 counterexample: in `"123456789"` the bare pattern `\d{5}-?\d{3}`
occurs (at position 0) and no reset/cancel/help keyword is present, yet
`classify` returns `UNKNOWN` with confidence 0 — the scanner requires the
match to be delimited by word boundaries (`\b`), and every candidate
position here has a digit on one side. -/
theorem c9_counterexample_word_boundary :
    Classifier.cepPatternOccurs (Classifier.normalize "123456789".toList) = true ∧
    Classifier.anyKeyword Classifier.resetKeywords
      (Classifier.normalize "123456789".toList) = false ∧
    Classifier.anyKeyword Classifier.cancelKeywords
      (Classifier.normalize "123456789".toList) = false ∧
    Classifier.anyKeyword Classifier.helpKeywords
      (Classifier.normalize "123456789".toList) = false ∧
    Classifier.classify "123456789".toList =
      ⟨Classifier.UserIntent.UNKNOWN, 0, none⟩ := by
  refine ⟨by decide, by decide, by decide, by decide, by decide⟩

/-- C9 amended: structured data keeps priority over keyword intents, but
the postal-code pattern must occur *delimited by word boundaries* (JS
`\b`): for every message whose normalization contains no reset, cancel or
help keyword, if `\d{5}-?\d{3}` occurs with no word character adjacent on
either side, `classify` returns `PROVIDE_CEP` with a digits-only 8-digit
code and confidence 1.0 — even when freight, tracking or payment keywords
are present in the same message. -/
theorem c9_cep_priority_delimited (msg : List Char)
    (hr : Classifier.anyKeyword Classifier.resetKeywords (Classifier.normalize msg) = false)
    (hc : Classifier.anyKeyword Classifier.cancelKeywords (Classifier.normalize msg) = false)
    (hh : Classifier.anyKeyword Classifier.helpKeywords (Classifier.normalize msg) = false)
    (hocc : Classifier.cepDelimitedOccurs (Classifier.normalize msg)) :
    ∃ code, Classifier.classify msg =
        ⟨Classifier.UserIntent.PROVIDE_CEP, 1, some ⟨some code, none⟩⟩ ∧
      code.length = 8 ∧ ∀ c ∈ code, c.isDigit = true := by
  obtain ⟨pre, d5, mid, d3, post, hsplit, h5, h5d, hmid, h3, h3d, hpre, hpost⟩ := hocc
  have hm : Classifier.cepMatchAt (d5 ++ mid ++ d3 ++ post) ≠ none :=
    cepMatchAt_of_delimited h5 h5d hmid h3 h3d (boundaryAfter_of hpost)
  have hscan : (Classifier.cepScan none (Classifier.normalize msg)).isSome = true := by
    rw [hsplit, show pre ++ d5 ++ mid ++ d3 ++ post = pre ++ (d5 ++ mid ++ d3 ++ post) by
      simp [List.append_assoc]]
    apply cepScan_isSome_of_delimited pre none (d5 ++ mid ++ d3 ++ post)
    · intro _ q hq
      exact Option.noConfusion hq
    · intro p hp
      rcases hpre with rfl | ⟨p', hp', hw⟩
      · exact Option.noConfusion hp
      · rw [hp'] at hp
        injection hp with hp''
        subst hp''
        exact hw
    · exact hm
  obtain ⟨code, hcode⟩ := Option.isSome_iff_exists.mp hscan
  have hspec := cepScan_spec (Classifier.normalize msg) none code hcode
  refine ⟨code, ?_, hspec.1, hspec.2⟩
  have hcep : Classifier.extractCEP (Classifier.normalize msg) = some code := hcode
  simp [Classifier.classify, hr, hc, hh, hcep]

/-- Witness for C9: `"frete 12345-678"` contains a freight keyword and a
delimited postal code; the code wins. -/
theorem c9_cep_priority_delimited_witness :
    (∃ code, Classifier.classify "frete 12345-678".toList =
        ⟨Classifier.UserIntent.PROVIDE_CEP, 1, some ⟨some code, none⟩⟩ ∧
      code.length = 8 ∧ ∀ c ∈ code, c.isDigit = true) ∧
    Classifier.anyKeyword Classifier.freightKeywords
      (Classifier.normalize "frete 12345-678".toList) = true :=
  ⟨c9_cep_priority_delimited "frete 12345-678".toList (by decide) (by decide) (by decide)
    ⟨"frete ".toList, "12345".toList, ['-'], "678".toList, [],
      by decide, by decide, by decide, Or.inr rfl, by decide, by decide,
      Or.inr ⟨' ', by decide, by decide⟩, Or.inl rfl⟩,
   by decide⟩

end CondStore
